import Mathlib

/-!
Verification of the client-side engine of `src/web/js/App.js`: the route
planning state machine, the poll scheduler guards, and the snapshot
reconciler.  Every definition is a shallow embedding of the corresponding
function of `App.js` (line numbers cited in the doc comments); JS numbers are
modelled as `ℚ`, JS `null`/`undefined`/falsy-string as `Option`, JS `Set` as a
deduplicated `List String`, and JS `Map`/plain objects as association lists.
-/

namespace Fareway

/-- A latitude/longitude pair, one element of a polyline coordinates array. -/
abbrev Point : Type := ℚ × ℚ

/-- One link entry of a polled snapshot (the `link` objects consumed by
`App.js`).  `none` models an absent or falsy JS field. -/
structure Link where
  id : String := ""
  name : Option String := none
  type : Option String := none
  is_live : Bool := false
  flow : Option ℚ := none
  capacity : Option ℚ := none
  ci : Option ℚ := none
  price : Option ℚ := none
  last_observation_source : Option String := none
  age_sec : Option ℚ := none
  coordinates : Option (List Point) := none
  deriving DecidableEq

/-- The route selection object `this.route` (App.js 32-41).  The JS `Set`
fields are modelled as deduplicated lists; only membership and size are ever
used by the source. -/
structure Route where
  startLinkId : Option String := none
  endLinkId : Option String := none
  plannedLinkIds : List String := []
  plannedLinkSet : List String := []
  plannedLengthM : Option ℚ := none
  activeLinkIds : List String := []
  activeLengthM : Option ℚ := none
  planMessage : Option String := none
  deriving DecidableEq

/-- The slice of the `App` object that the route planning state machine
owns: the route selection, the focus flag (App.js 31) and whether the
route-scoped poll timer is installed (`this.routePollInterval !== null`,
App.js 52). -/
structure RMState where
  route : Route := {}
  focusedMode : Bool := false
  routePollingOn : Bool := false
  deriving DecidableEq

/-- A server route payload (`data.route` of `/route/activate`, `/route/active`
and `/route/live`).  `link_ids = none` models a missing or non-array field
(the source checks `Array.isArray`). -/
structure ServerRoute where
  link_ids : Option (List String) := none
  total_length_m : Option ℚ := none
  start_link_id : Option String := none
  end_link_id : Option String := none
  deriving DecidableEq

/-- A parsed `/route/live` response (App.js 574-595). -/
structure RouteLiveResponse where
  active : Bool := false
  route : Option ServerRoute := none
  deriving DecidableEq

/-- The workflow state names of spec section 4.3.  Modelled from the spec:
the source keeps no explicit state tag, so the state is read off the route
fields in the priority order the spec's progression implies. -/
inductive FSMState where
  | Idle
  | StartSelected
  | BothSelected
  | Planned
  | Active
  deriving DecidableEq

/-- Modelled from the spec: which spec-section-4.3 state a route selection is
in.  An active route means `Active`; otherwise a non-empty plan means
`Planned`; otherwise both endpoints mean `BothSelected`; otherwise a start
means `StartSelected`; otherwise `Idle`. -/
def specStateOf (r : Route) : FSMState :=
  if r.activeLinkIds ≠ [] then .Active
  else if r.plannedLinkIds ≠ [] then .Planned
  else if r.startLinkId ≠ none ∧ r.endLinkId ≠ none then .BothSelected
  else if r.startLinkId ≠ none then .StartSelected
  else .Idle

/-- `clearPlannedRoute` (App.js 295-300): wipes the plan and the plan
message. -/
def clearPlannedRoute (r : Route) : Route :=
  { r with plannedLinkIds := [], plannedLinkSet := [],
           plannedLengthM := none, planMessage := none }

/-- `setPlannedRoute` (App.js 302-307): installs a plan; a non-array
`linkIds` becomes `[]`, a non-number `lengthM` becomes `null`.  It does not
touch `planMessage`. -/
def setPlannedRoute (r : Route) (linkIds : Option (List String))
    (lengthM : Option ℚ) : Route :=
  let ids := linkIds.getD []
  { r with plannedLinkIds := ids, plannedLinkSet := ids.dedup,
           plannedLengthM := lengthM }

/-- `handleLinkSelection` (App.js 265-285), route fields only (the trailing
`updateRouteUI`/`refreshRouteStyles` calls only redraw).  A falsy `linkId` is
modelled as `""`. -/
def handleLinkSelection (r : Route) (linkId : String) : Route :=
  if linkId = "" then r
  else if some linkId = r.startLinkId then
    clearPlannedRoute { r with startLinkId := none, endLinkId := none }
  else if some linkId = r.endLinkId then
    clearPlannedRoute { r with endLinkId := none }
  else if r.startLinkId = none ∨ r.endLinkId ≠ none then
    clearPlannedRoute { r with startLinkId := some linkId, endLinkId := none }
  else
    { r with endLinkId := some linkId }

/-- `clearRouteSelection` (App.js 287-293): clears the endpoints and the
plan.  It does not touch the active route, the route poll timer or the focus
flag. -/
def clearRouteSelection (s : RMState) : RMState :=
  { s with route :=
      clearPlannedRoute { s.route with startLinkId := none, endLinkId := none } }

/-- `setFocusedMode` (App.js 432-442), state fields only: the stored flag
becomes `enabled && hasActiveRoute`; with `force = false` and no change the
call is a no-op. -/
def setFocusedMode (s : RMState) (enabled force : Bool) : RMState :=
  let hasActiveRoute := s.route.activeLinkIds ≠ []
  let nextValue := enabled && decide hasActiveRoute
  if force = false ∧ nextValue = s.focusedMode then s
  else { s with focusedMode := nextValue }

/-- `startRoutePolling` (App.js 557-561), timer flag only: installs the
route poll timer if it is not already installed. -/
def startRoutePolling (s : RMState) : RMState :=
  { s with routePollingOn := true }

/-- `stopRoutePolling` (App.js 563-567), timer flag only. -/
def stopRoutePolling (s : RMState) : RMState :=
  { s with routePollingOn := false }

/-- The empty branch of `setActiveRoute` (App.js 310-314): no route, or a
missing/non-array/empty `link_ids`. -/
def setActiveRouteEmpty (s : RMState) : RMState :=
  let s1 := { s with route :=
      { s.route with activeLinkIds := [], activeLengthM := none } }
  setFocusedMode (stopRoutePolling s1) false true

/-- `setActiveRoute` (App.js 309-329), state fields only.  A non-empty
server route replaces the active set and length, overwrites the endpoints
when the server provides them, starts route polling and force-enables focus;
otherwise everything active is wiped, polling stops and focus is forced
off. -/
def setActiveRoute (s : RMState) (route : Option ServerRoute) : RMState :=
  match route with
  | none => setActiveRouteEmpty s
  | some rt =>
    match rt.link_ids with
    | none => setActiveRouteEmpty s
    | some ids =>
      if ids = [] then setActiveRouteEmpty s
      else
        let r1 := { s.route with
          activeLinkIds := ids.dedup,
          activeLengthM := rt.total_length_m }
        let r2 := match rt.start_link_id with
          | some sid => { r1 with startLinkId := some sid }
          | none => r1
        let r3 := match rt.end_link_id with
          | some eid => { r2 with endLinkId := some eid }
          | none => r2
        setFocusedMode (startRoutePolling { s with route := r3 }) true true

/-- Outcome of the `/route/plan` round trip inside `planRoute`: either the
parsed success payload, or the message of the caught exception (`none` or
`""` model a falsy `e.message`). -/
inductive PlanOutcome where
  | success (link_ids : Option (List String)) (total_length_m : Option ℚ)
  | failure (message : Option String)
  deriving DecidableEq

/-- JS `m || d` on an error message: a missing or empty message falls back to
the default. -/
def messageOrDefault (m : Option String) (d : String) : String :=
  match m with
  | none => d
  | some st => if st = "" then d else st

/-- `planRoute` (App.js 485-515), state fields only, as a total function of
the request outcome: the `try`/`catch` lets no exception escape.  Without
both endpoints it only sets a message; on success it installs the plan and
clears the message; on failure it wipes the plan and stores the failure
reason. -/
def planRoute (s : RMState) (outcome : PlanOutcome) : RMState :=
  if s.route.startLinkId = none ∨ s.route.endLinkId = none then
    { s with route :=
        { s.route with planMessage := some "Select start and end links." } }
  else
    match outcome with
    | .success ids len =>
      { s with route :=
          { (setPlannedRoute s.route ids len) with planMessage := none } }
    | .failure msg =>
      { s with route :=
          { (setPlannedRoute s.route (some []) none) with
              planMessage := some (messageOrDefault msg "Route planning failed.") } }

/-- The body of `pollRouteState` (App.js 569-601) once the `/route/live`
response has resolved, state fields only.  The in-flight and visibility
guards are modelled separately (`pollRouteStateIssues`); the `activeLinkIds`
guard of line 571 is part of the body.  An inactive response clears the
route; an active response with a changed id list replaces it; an unchanged
list only refreshes the length; a missing route or non-array `link_ids`
changes nothing. -/
def pollRouteStateResolve (s : RMState) (resp : RouteLiveResponse) : RMState :=
  if s.route.activeLinkIds = [] then s
  else if resp.active = false then setActiveRoute s none
  else
    match resp.route with
    | none => s
    | some rt =>
      match rt.link_ids with
      | none => s
      | some nextIds =>
        let changed := nextIds.length ≠ s.route.activeLinkIds.length ∨
          ∃ i ∈ nextIds, i ∉ s.route.activeLinkIds
        if changed then setActiveRoute s (some rt)
        else
          match rt.total_length_m with
          | some len =>
            { s with route := { s.route with activeLengthM := some len } }
          | none => s

/-- Full-state poll interval `this.pollIntervalMs` (App.js 14). -/
def pollIntervalMs : ℚ := 1500

/-- Focused full-state poll interval `this.focusedPollIntervalMs`
(App.js 15). -/
def focusedPollIntervalMs : ℚ := 6000

/-- Guard of `pollState` (App.js 1051-1056): a full-state tick issues a
request only when no full-state request is in flight, the page is visible,
and the adaptive minimum interval has elapsed; the minimum interval is the
focused one whenever a route is active. -/
def pollStateIssues (inFlight hidden activeNonempty : Bool)
    (now lastFullPollAt : ℚ) : Bool :=
  if inFlight || hidden then false
  else
    let minInterval := if activeNonempty then focusedPollIntervalMs
      else pollIntervalMs
    decide (now - lastFullPollAt ≥ minInterval)

/-- Guard of `pollRouteState` (App.js 570-571): a route-scoped tick issues a
request only when no route request is in flight, the page is visible, and a
route is active. -/
def pollRouteStateIssues (inFlight hidden activeNonempty : Bool) : Bool :=
  if inFlight || hidden then false
  else activeNonempty

/-- Guard of `updateCharts` (App.js 1246-1248): a chart tick issues a
request whenever no chart request is in flight.  The `hidden` argument is
accepted for comparison with the other kinds but ignored: the source has no
visibility check in `updateCharts`. -/
def updateChartsIssues (inFlight : Bool) (_hidden : Bool) : Bool :=
  if inFlight then false else true

/-- In-flight bookkeeping of one poll kind: the guard flag
(`isPollRequestInFlight` / `isRoutePollInFlight` / `isChartRequestInFlight`)
plus a ghost count of issued-but-unresolved requests. -/
structure KindState where
  inFlight : Bool := false
  outstanding : Nat := 0
  deriving DecidableEq

/-- Events seen by one poll kind: a scheduled tick (with the kind's other
guards folded into `allowed`) or the resolution of an outstanding request. -/
inductive KindEvent where
  | tick (allowed : Bool)
  | resolve
  deriving DecidableEq

/-- One scheduler step for one poll kind, mirroring the source discipline of
all three kinds: a tick returns immediately when the in-flight flag is set
(or another guard fails), otherwise it sets the flag and issues a request;
the `finally` block clears the flag exactly when a request resolves. -/
def kindStep (k : KindState) : KindEvent → KindState
  | .tick allowed =>
    if k.inFlight || !allowed then k
    else { inFlight := true, outstanding := k.outstanding + 1 }
  | .resolve =>
    if k.outstanding = 0 then k
    else { inFlight := false, outstanding := k.outstanding - 1 }

/-- A run of one poll kind over a sequence of ticks and resolutions. -/
def kindRun (k : KindState) (evs : List KindEvent) : KindState :=
  evs.foldl kindStep k

/-- Lookup in an association list, mirroring JS `Map.get` / object
indexing. -/
def alookup {α : Type} : List (String × α) → String → Option α
  | [], _ => none
  | (k, v) :: rest, key => if k = key then some v else alookup rest key

/-- Insertion into an association list, mirroring JS `Map.set` / object
property assignment: an existing key is overwritten in place, a new key is
appended. -/
def aset {α : Type} : List (String × α) → String → α → List (String × α)
  | [], key, v => [(key, v)]
  | (k, w) :: rest, key, v =>
    if k = key then (key, v) :: rest else (k, w) :: aset rest key v

/-- Cached static facts about a link, `this.linkMeta` values (App.js 25,
733-750, 670-693, 788-803). -/
structure LinkMeta where
  name : Option String := none
  type : Option String := none
  coordinates : Option (List Point) := none
  center : Option Point := none
  deriving DecidableEq

/-- The two-layer rendered polyline group `this.polylines[id]`
(App.js 695-724).  The fields record what creation drew; an entity value is
never mutated after creation (restyling goes through the render surface and
the style cache, not through this record). -/
structure PolyGroup where
  coordinates : List Point
  isTransit : Bool
  deriving DecidableEq

/-- The per-link state cached for popups, `this.linkStateCache` values
(App.js 1136-1147). -/
structure CachedLinkState where
  id : String
  name : String
  type : String
  is_live : Bool
  flow : Option ℚ
  capacity : Option ℚ
  ci : Option ℚ
  price : Option ℚ
  last_observation_source : Option String
  age_sec : Option ℚ
  deriving DecidableEq

/-- The five-field style applied to a polyline group (App.js 805-841,
1094-1114).  Equality of two values is exactly the five-field comparison of
`applyLinkStyle`. -/
structure LinkStyle where
  color : String
  glowColor : String
  weight : ℚ
  opacity : ℚ
  glowOpacity : ℚ
  deriving DecidableEq

/-- One live-position circle marker, `this.liveMarkers[id]`
(App.js 1212-1236): the fields that `updateLiveMarkers` sets on creation and
keeps in sync on update. -/
structure MarkerState where
  latLng : Point
  color : String
  className : String
  tooltip : String
  deriving DecidableEq

/-- Render-surface operations performed by the reconciler: creating a
polyline group, writing a style to an existing group, and removing a
group. -/
inductive WriteEvent where
  | createEntity (id : String)
  | writeStyle (id : String) (style : LinkStyle)
  | removeEntity (id : String)
  deriving DecidableEq

/-- The slice of the `App` object that the snapshot reconciler and marker
manager read and write.  `viewMode` is `this.state.viewMode`,
`showLiveMarkers` is `this.state.showLiveMarkers`. -/
structure ReconState where
  linkMeta : List (String × LinkMeta) := []
  linkStateCache : List (String × CachedLinkState) := []
  linkStyleCache : List (String × LinkStyle) := []
  polylines : List (String × PolyGroup) := []
  liveMarkers : List (String × MarkerState) := []
  route : Route := {}
  viewMode : String := "live"
  showLiveMarkers : Bool := true
  liveStaleThresholdSec : ℚ := 10
  deriving DecidableEq

/-- JS `a || b` on two optional values whose present case is always truthy
(arrays and nonempty strings). -/
def orO {α : Type} (a b : Option α) : Option α :=
  match a with
  | some x => some x
  | none => b

/-- The name/type merge step of `getLinkMeta` (App.js 736-745): each field
is overwritten only when the link carries a truthy value that differs;
returns the merged meta and whether anything changed. -/
def mergeMeta (m : LinkMeta) (link : Link) : LinkMeta × Bool :=
  let p1 := match link.name with
    | some n => if m.name = some n then (m, false) else ({ m with name := some n }, true)
    | none => (m, false)
  let p2 := match link.type with
    | some t =>
      if p1.1.type = some t then (p1.1, false) else ({ p1.1 with type := some t }, true)
    | none => (p1.1, false)
  (p2.1, p1.2 || p2.2)

/-- `getLinkMeta` (App.js 733-750): returns the merged meta for the link and
the updated meta map.  The JS code mutates the stored object in place, so a
present key always ends up holding the merged value; a fresh meta object is
inserted only when the merge changed something. -/
def getLinkMeta (mm : List (String × LinkMeta)) (link : Link) :
    LinkMeta × List (String × LinkMeta) :=
  match alookup mm link.id with
  | some existing =>
    let p := mergeMeta existing link
    (p.1, aset mm link.id p.1)
  | none =>
    let p := mergeMeta {} link
    (p.1, if p.2 then aset mm link.id p.1 else mm)

/-- `getCenterPoint` (App.js 726-731): the middle coordinate of a polyline,
`none` for an empty list. -/
def getCenterPoint (coordinates : List Point) : Option Point :=
  coordinates[coordinates.length / 2]?

/-- The coordinate-derivation branch of `getLinkCenter` (App.js 792-801):
derive the center from the link's own coordinates and persist coordinates
and center into a copy of the meta. -/
def deriveCenter (s : ReconState) (meta : Option LinkMeta) (link : Link) :
    ReconState × Option Point :=
  match link.coordinates with
  | some cs =>
    if cs.length > 1 then
      match getCenterPoint cs with
      | some center =>
        let updated := { (meta.getD {}) with
          coordinates := some cs,
          center := some center }
        ({ s with linkMeta := aset s.linkMeta link.id updated }, some center)
      | none => (s, none)
    else (s, none)
  | none => (s, none)

/-- `getLinkCenter` (App.js 788-803): a cached center wins; otherwise the
center is derived from the link's coordinates (persisting it), and `none`
when neither is available. -/
def getLinkCenter (s : ReconState) (link : Link) : ReconState × Option Point :=
  if link.id = "" then (s, none)
  else
    match alookup s.linkMeta link.id with
    | some m =>
      match m.center with
      | some c => (s, some c)
      | none => deriveCenter s (some m) link
    | none => deriveCenter s none link

/-- `getLinkName` (App.js 752-757): the link's own truthy name, else the
cached meta name, else the id. -/
def getLinkName (s : ReconState) (link : Link) : String :=
  match link.name with
  | some n => n
  | none =>
    match alookup s.linkMeta link.id with
    | some m => m.name.getD link.id
    | none => link.id

/-- `createPolylineForLink` (App.js 695-724): registers a two-layer polyline
group, but only when none exists for the id and the coordinates are a list
of at least two points (the map object exists for the whole session). -/
def createPolylineForLink (s : ReconState) (linkId : String)
    (coordinates : Option (List Point)) (type : Option String) :
    ReconState × List WriteEvent :=
  match alookup s.polylines linkId with
  | some _ => (s, [])
  | none =>
    match coordinates with
    | none => (s, [])
    | some cs =>
      if cs.length < 2 then (s, [])
      else
        let pg : PolyGroup := { coordinates := cs, isTransit := type = some "transit" }
        ({ s with polylines := aset s.polylines linkId pg },
         [WriteEvent.createEntity linkId])

/-- `applyRouteStyleOverrides` (App.js 843-879): the planned, active, start
and end overrides, applied in that fixed order, each raising the glow and
weight floors with `max` (start/end force core color and full opacity). -/
def applyRouteStyleOverrides (route : Route) (style : LinkStyle)
    (linkId : String) : LinkStyle :=
  if linkId = "" then style
  else
    let isStart := some linkId = route.startLinkId
    let isEnd := some linkId = route.endLinkId
    let isPlanned := linkId ∈ route.plannedLinkSet
    let isActive := linkId ∈ route.activeLinkIds
    let s1 := if isPlanned then
        { style with
          glowColor := "#38bdf8",
          glowOpacity := max style.glowOpacity 0.35,
          weight := max style.weight 6 }
      else style
    let s2 := if isActive then
        { s1 with
          glowColor := "#22c55e",
          glowOpacity := max s1.glowOpacity 0.45,
          weight := max s1.weight 6 }
      else s1
    let s3 := if isStart then
        { s2 with
          color := "#22c55e", glowColor := "#22c55e",
          opacity := 1,
          glowOpacity := max s2.glowOpacity 0.6,
          weight := max s2.weight 7 }
      else s2
    let s4 := if isEnd then
        { s3 with
          color := "#f43f5e", glowColor := "#f43f5e",
          opacity := 1,
          glowOpacity := max s3.glowOpacity 0.6,
          weight := max s3.weight 7 }
      else s3
    s4

/-- `getLinkStyle` (App.js 805-841).  The congestion cascade of lines
825-831 reassigns `color`/`glowColor` in step, so it collapses to one
bucket selection; transit then overrides both. -/
def getLinkStyle (viewMode : String) (route : Route) (link : Link)
    (type : String) : LinkStyle :=
  let isSimView := viewMode = "simulator"
  let isLive := link.is_live
  let shouldHighlight := if isSimView then !isLive else isLive
  let baseColor := if type = "transit" then "#a855f7" else "#334155"
  if shouldHighlight = false then
    applyRouteStyleOverrides route
      { color := baseColor, glowColor := baseColor,
        weight := if type = "transit" then 3 else 4,
        opacity := 0.35, glowOpacity := 0.05 } link.id
  else
    let ci := link.ci.getD 0
    let bucket : String :=
      if ci > 0.8 then "#ff0055"
      else if ci > 0.6 then "#ffcc00"
      else if ci > 0.4 then "#00f2ff"
      else "#334155"
    let color := if type = "transit" then "#a855f7" else bucket
    applyRouteStyleOverrides route
      { color := color, glowColor := color,
        weight := if ci > 0.8 then 6 else if type = "transit" then 3 else 5,
        opacity := if ci > 0.1 then 1 else 0.4,
        glowOpacity := if ci > 0.1 then 0.25 else 0.05 } link.id

/-- `applyLinkStyle` (App.js 1094-1114): the style is written to the render
surface only when it differs from the cached style in at least one of the
five fields (structure equality of `LinkStyle` is exactly that comparison);
the cache is updated on every write. -/
def applyLinkStyle (s : ReconState) (linkId : String) (style : LinkStyle) :
    ReconState × List WriteEvent :=
  match alookup s.linkStyleCache linkId with
  | some prevStyle =>
    if prevStyle = style then (s, [])
    else
      ({ s with linkStyleCache := aset s.linkStyleCache linkId style },
       [WriteEvent.writeStyle linkId style])
  | none =>
    ({ s with linkStyleCache := aset s.linkStyleCache linkId style },
     [WriteEvent.writeStyle linkId style])

/-- The resolved display type of a link, `meta.type || link.type || 'road'`
(App.js 1119). -/
def metaType (meta : LinkMeta) (link : Link) : String :=
  meta.type.getD (link.type.getD "road")

/-- The resolved display name of a link, `meta.name || link.name || link.id`
(App.js 1120). -/
def metaName (meta : LinkMeta) (link : Link) : String :=
  meta.name.getD (link.name.getD link.id)

/-- The value stored into `linkStateCache` by `updateLinkState`
(App.js 1136-1147). -/
def cachedLinkState (link : Link) (name type : String) : CachedLinkState :=
  { id := link.id, name := name, type := type, is_live := link.is_live,
    flow := link.flow, capacity := link.capacity, ci := link.ci,
    price := link.price, last_observation_source := link.last_observation_source,
    age_sec := link.age_sec }

/-- The group-or-create step of `updateLinkState` (App.js 1122-1129): keep
an existing polyline group, otherwise attempt to create one from the
cached-or-carried coordinates. -/
def ensurePolyline (s : ReconState) (link : Link) (coords : Option (List Point))
    (type : String) : ReconState × List WriteEvent :=
  match alookup s.polylines link.id with
  | some _ => (s, [])
  | none => createPolylineForLink s link.id coords (some type)

/-- The style-and-cache step of `updateLinkState` (App.js 1131-1147): when a
polyline group exists for the id, compute the target style, apply it
through the diff cache, and refresh the popup state cache; without a group
the step is a no-op (`if (!polyGroup) return`). -/
def stylePhase (s : ReconState) (link : Link) (type name : String) :
    ReconState × List WriteEvent :=
  match alookup s.polylines link.id with
  | none => (s, [])
  | some _ =>
    let w := applyLinkStyle s link.id (getLinkStyle s.viewMode s.route link type)
    ({ w.1 with
       linkStateCache := aset w.1.linkStateCache link.id (cachedLinkState link name type) },
     w.2)

/-- `updateLinkState` (App.js 1116-1153): merge the meta, create the
polyline group on first sighting of geometry, compute the target style and
apply it through the diff cache, then refresh the popup state cache.  A
falsy id is a no-op. -/
def updateLinkState (s : ReconState) (link : Link) :
    ReconState × List WriteEvent :=
  if link.id = "" then (s, [])
  else
    let p := getLinkMeta s.linkMeta link
    let type := metaType p.1 link
    let name := metaName p.1 link
    let q := ensurePolyline { s with linkMeta := p.2 } link
      (orO p.1.coordinates link.coordinates) type
    let r := stylePhase q.1 link type name
    (r.1, q.2 ++ r.2)

/-- Whether a live marker shows as stale (App.js 1206-1207): a missing or
non-number `age_sec` counts as stale, otherwise staleness is age above the
threshold. -/
def markerIsStale (thresholdSec : ℚ) (age_sec : Option ℚ) : Bool :=
  match age_sec with
  | some age => decide (age > thresholdSec)
  | none => true

/-- The marker CSS class for a staleness flag (App.js 1208). -/
def markerClassOf (isStale : Bool) : String :=
  if isStale then "live-marker live-marker-stale" else "live-marker live-marker-fresh"

/-- The marker color for a staleness flag (App.js 1209). -/
def markerColorOf (isStale : Bool) : String :=
  if isStale then "#64748b" else "#22c55e"

/-- The marker appearance computed for one live link by `updateLiveMarkers`
(App.js 1206-1235); the create and update branches both leave the marker in
exactly this state. -/
def markerFor (s : ReconState) (link : Link) (latLng : Point) : MarkerState :=
  let isStale := markerIsStale s.liveStaleThresholdSec link.age_sec
  { latLng := latLng,
    color := markerColorOf isStale,
    className := markerClassOf isStale,
    tooltip := getLinkName s link ++ " -> " ++ (if isStale then "stale" else "live") }

/-- The per-entry loop of `updateLiveMarkers` (App.js 1200-1237): each live
link with a resolvable center gets its marker created or updated and its id
collected into the live set. -/
def syncLiveMarkers (s : ReconState) : List Link → ReconState × List String
  | [] => (s, [])
  | link :: rest =>
    if link.is_live then
      let c := getLinkCenter s link
      match c.2 with
      | some latLng =>
        let marker := markerFor c.1 link latLng
        let s1 := { c.1 with liveMarkers := aset c.1.liveMarkers link.id marker }
        let r := syncLiveMarkers s1 rest
        (r.1, link.id :: r.2)
      | none => syncLiveMarkers c.1 rest
    else syncLiveMarkers s rest

/-- `updateLiveMarkers` (App.js 1191-1244): with the display toggle off all
markers are cleared; otherwise every live link with a resolvable center is
created-or-updated and every marker whose id is not in the current live set
is removed. -/
def updateLiveMarkers (s : ReconState) (links : List Link) : ReconState :=
  if s.showLiveMarkers = false then { s with liveMarkers := [] }
  else
    let r := syncLiveMarkers s links
    { r.1 with liveMarkers := r.1.liveMarkers.filter (fun p => decide (p.1 ∈ r.2)) }

/-- The per-entry loop shared by `updateMap` (App.js 1159-1163) and
`updateRouteLinks` (App.js 1180): `updateLinkState` on each entry in order,
concatenating the render-surface events. -/
def reconcileLinks (s : ReconState) : List Link → ReconState × List WriteEvent
  | [] => (s, [])
  | link :: rest =>
    let p := updateLinkState s link
    let q := reconcileLinks p.1 rest
    (q.1, p.2 ++ q.2)

/-- The ids collected into `currentLinkIds` by the `updateMap` loop
(App.js 1157-1162): every truthy id of the snapshot, in order.  The JS
builds this set inside the loop, but it depends only on the snapshot. -/
def currentIds (links : List Link) : List String :=
  (links.filter (fun l => decide (l.id ≠ ""))).map Link.id

/-- `updateMap` (App.js 1155-1176): reconcile every entry, then — only when
`pruneMissing` (true at the sole call site, the full-state poll) — sync the
live markers and remove every polyline group, state-cache entry and
style-cache entry whose id the snapshot omitted. -/
def updateMap (s : ReconState) (links : List Link) (pruneMissing : Bool) :
    ReconState × List WriteEvent :=
  let p := reconcileLinks s links
  if pruneMissing then
    let s2 := updateLiveMarkers p.1 links
    let pruneIds := (s2.polylines.map Prod.fst).filter
      (fun i => decide (i ∉ currentIds links))
    let s3 := { s2 with
      polylines := s2.polylines.filter (fun q => decide (q.1 ∈ currentIds links)),
      linkStateCache := s2.linkStateCache.filter (fun q => decide (q.1 ∉ pruneIds)),
      linkStyleCache := s2.linkStyleCache.filter (fun q => decide (q.1 ∉ pruneIds)) }
    (s3, p.2 ++ pruneIds.map WriteEvent.removeEntity)
  else p

/-- `updateRouteLinks` (App.js 1178-1182): the route-scoped update path —
reconcile the listed entries and sync markers, with no pruning of polyline
groups. -/
def updateRouteLinks (s : ReconState) (links : List Link) :
    ReconState × List WriteEvent :=
  let p := reconcileLinks s links
  (updateLiveMarkers p.1 links, p.2)

/-- A sequence of full-or-route reconciliations: each element is a snapshot
together with whether it was a full snapshot (`updateMap` with pruning) or a
route-scoped one (`updateRouteLinks`). -/
def reconcileRun (s : ReconState) : List (List Link × Bool) →
    ReconState × List WriteEvent
  | [] => (s, [])
  | (links, full) :: rest =>
    let p := if full then updateMap s links true else updateRouteLinks s links
    let q := reconcileRun p.1 rest
    (q.1, p.2 ++ q.2)

/-- Coordinates cached for an id, `this.linkMeta.get(id)?.coordinates`. -/
def metaCoords (mm : List (String × LinkMeta)) (k : String) : Option (List Point) :=
  (alookup mm k).bind LinkMeta.coordinates

/-- Whether `updateLinkState` would find usable geometry for a link: the
cached-or-carried coordinate list exists and has at least two points
(App.js 1124-1125 together with the length check of 697). -/
def hasGeomB (m : LinkMeta) (link : Link) : Bool :=
  match orO m.coordinates link.coordinates with
  | some cs => decide (1 < cs.length)
  | none => false

/-- Well-formedness of one cached meta: its coordinate list, when present,
has at least two points. -/
def metaOK (m : LinkMeta) : Bool :=
  match m.coordinates with
  | some cs => decide (1 < cs.length)
  | none => true

/-- Well-formedness of the meta map maintained by the app: every cached
coordinate list has at least two points (`applyNetworkGeometry` and
`getLinkCenter` only ever store such lists, App.js 677 and 793). -/
def metaWF (mm : List (String × LinkMeta)) : Bool :=
  mm.all fun p => metaOK p.2

/-- Whether a snapshot entry carries or finds usable geometry against a
given meta map: the cached-or-carried coordinate list has at least two
points. -/
def geomKnown (mm : List (String × LinkMeta)) (l : Link) : Bool :=
  match orO (metaCoords mm l.id) l.coordinates with
  | some cs => decide (1 < cs.length)
  | none => false

/-- The meta value `getLinkMeta` leaves associated with `l.id`. -/
def mergedOf (mm : List (String × LinkMeta)) (l : Link) : LinkMeta :=
  (mergeMeta ((alookup mm l.id).getD {}) l).1

/-- The meta currently associated with a link's id, defaulting to the empty
meta, as read by the reconciliation path. -/
def settledMeta (s : ReconState) (link : Link) : LinkMeta :=
  (alookup s.linkMeta link.id).getD {}

/-- The style `updateLinkState` computes for a link against the current
state. -/
def settledStyle (s : ReconState) (link : Link) : LinkStyle :=
  getLinkStyle s.viewMode s.route link (metaType (settledMeta s link) link)

/-- The popup cache entry `updateLinkState` stores for a link against the
current state. -/
def settledCached (s : ReconState) (link : Link) : CachedLinkState :=
  cachedLinkState link (metaName (settledMeta s link) link)
    (metaType (settledMeta s link) link)

/-- A state is settled for a link when reconciling that link again changes
nothing: the meta merge is a no-op, a missing overlay entity can only be
missing for lack of geometry, and an existing entity's caches already hold
exactly what reconciliation would compute. -/
def settledFor (s : ReconState) (link : Link) : Prop :=
  link.id = "" ∨
  ((mergeMeta (settledMeta s link) link).2 = false ∧
   (alookup s.polylines link.id = none → hasGeomB (settledMeta s link) link = false) ∧
   (alookup s.polylines link.id ≠ none →
     alookup s.linkStyleCache link.id = some (settledStyle s link) ∧
     alookup s.linkStateCache link.id = some (settledCached s link)))

/-- A route-machine state with an activated, focused, polled route and a
surviving selection and plan, as left by a successful `activateRoute`. -/
def activeDemo : RMState :=
  { route := { startLinkId := some "A", endLinkId := some "B",
               plannedLinkIds := ["L1", "L2"], plannedLinkSet := ["L1", "L2"],
               plannedLengthM := some 1200,
               activeLinkIds := ["L1", "L2"], activeLengthM := some 1200,
               planMessage := none },
    focusedMode := true, routePollingOn := true }

/-- A route-machine state holding a selection and a plan but no active
route. -/
def plannedDemo : RMState :=
  { route := { startLinkId := some "A", endLinkId := some "B",
               plannedLinkIds := ["P"], plannedLinkSet := ["P"],
               plannedLengthM := some 500 } }

/-- A server route whose endpoints differ from the local selection. -/
def serverRouteDemo : ServerRoute :=
  { link_ids := some ["L1"], total_length_m := some 300,
    start_link_id := some "B2", end_link_id := some "B3" }

/-- A snapshot entry with geometry, used to exercise the reconciler on
concrete runs. -/
def geomLinkDemo : Link :=
  { id := "L", type := some "road", is_live := true, ci := some 0.9,
    coordinates := some [(0, 0), (1, 1)] }

/-- A reconciler state with live markers disabled, as a neutral starting
point for concrete runs. -/
def reconDemo : ReconState := { showLiveMarkers := false }

/-- The road link of spec scenario 1: congestion index 0.9, live. -/
def scenarioLink : Link :=
  { id := "L1", type := some "road", is_live := true, ci := some 0.9 }

/-- A live link with cached geometry for exercising the marker sync. -/
def markerDemoState : ReconState :=
  { linkMeta := [("M1", { name := some "Bridge",
                          coordinates := some [(0, 0), (2, 2)],
                          center := some (1, 1) })] }

/-- A live link entry whose `age_sec` is absent. -/
def markerDemoLink : Link := { id := "M1", is_live := true }

/-- A polyline group as created for a two-point geometry. -/
def pgDemo : PolyGroup := { coordinates := [(0, 0), (1, 1)], isTransit := false }

/-- A reconciler state already holding an overlay entity, cached styles and a
live marker for id "L". -/
def pruneDemo : ReconState :=
  { polylines := [("L", pgDemo)],
    linkStyleCache := [("L",
      { color := "#444", glowColor := "#334155", weight := 4, opacity := 0.6,
        glowOpacity := 0.15 })],
    linkStateCache := [("L",
      { id := "L", name := "L", type := "road", is_live := true, flow := none,
        capacity := none, ci := none, price := none,
        last_observation_source := none, age_sec := none })],
    liveMarkers := [("L",
      { latLng := (0, 0), color := "#22c55e",
        className := "live-marker live-marker-fresh",
        tooltip := "L -> live" })] }

theorem alookup_aset_self {α : Type} (m : List (String × α)) (k : String) (v : α) :
    alookup (aset m k v) k = some v := by
  induction m with
  | nil => simp [aset, alookup]
  | cons p rest ih =>
    obtain ⟨a, b⟩ := p
    by_cases h : a = k
    · simp [aset, h, alookup]
    · simp [aset, h, alookup, ih]

theorem alookup_aset_ne {α : Type} (m : List (String × α)) (k k' : String) (v : α)
    (h : k' ≠ k) : alookup (aset m k v) k' = alookup m k' := by
  induction m with
  | nil => simp [aset, alookup, Ne.symm h]
  | cons p rest ih =>
    obtain ⟨a, b⟩ := p
    by_cases ha : a = k
    · subst ha
      simp [aset, alookup, Ne.symm h]
    · simp [aset, ha, alookup, ih]

theorem aset_lookup_eq {α : Type} {m : List (String × α)} {k : String} {v : α}
    (h : alookup m k = some v) : aset m k v = m := by
  induction m with
  | nil => simp [alookup] at h
  | cons p rest ih =>
    obtain ⟨a, b⟩ := p
    by_cases ha : a = k
    · subst ha
      simp [alookup] at h
      simp [aset, h]
    · simp [alookup, ha] at h
      simp [aset, ha, ih h]

theorem alookup_mem {α : Type} {m : List (String × α)} {k : String} {v : α}
    (h : alookup m k = some v) : (k, v) ∈ m := by
  induction m with
  | nil => simp [alookup] at h
  | cons p rest ih =>
    obtain ⟨a, b⟩ := p
    by_cases ha : a = k
    · subst ha
      simp [alookup] at h
      simp [h]
    · simp [alookup, ha] at h
      simp [ih h]

theorem alookup_filter_mem {α : Type} (m : List (String × α)) (ids : List String)
    (k : String) :
    alookup (m.filter fun p => decide (p.1 ∈ ids)) k =
      if k ∈ ids then alookup m k else none := by
  induction m with
  | nil => simp [alookup]
  | cons p rest ih =>
    obtain ⟨a, b⟩ := p
    by_cases hm : a ∈ ids <;> by_cases hak : a = k
    · subst hak
      simp [List.filter_cons, hm, alookup, ih]
    · simp [List.filter_cons, hm, alookup, hak, ih]
    · subst hak
      simp [List.filter_cons, hm, alookup, ih]
    · simp [List.filter_cons, hm, alookup, hak, ih]

theorem alookup_filter_not {α : Type} (m : List (String × α)) (ids : List String)
    (k : String) :
    alookup (m.filter fun p => decide (p.1 ∉ ids)) k =
      if k ∈ ids then none else alookup m k := by
  induction m with
  | nil => simp [alookup]
  | cons p rest ih =>
    obtain ⟨a, b⟩ := p
    rw [List.filter_cons]
    by_cases hm : a ∈ ids <;> by_cases hak : a = k
    · subst hak
      have hcond : ¬(decide (a ∉ ids) = true) := by simp [hm]
      rw [if_neg hcond, ih]
      simp [hm]
    · have hcond : ¬(decide (a ∉ ids) = true) := by simp [hm]
      rw [if_neg hcond, ih]
      by_cases hk : k ∈ ids <;> simp [hk, alookup, hak]
    · subst hak
      have hcond : decide (a ∉ ids) = true := by simp [hm]
      rw [if_pos hcond]
      simp [alookup, hm]
    · have hcond : decide (a ∉ ids) = true := by simp [hm]
      rw [if_pos hcond]
      simp only [alookup, if_neg hak]
      rw [ih]

/-- C1: `clearRouteSelection` invoked from an active, focused, polled state
does not return the machine to `Idle`: the active route set and length, the
route poll timer and the focused mode all survive the call, so the claim
that it wipes the active route, stops route polling and exits focused mode
fails on this input. -/
theorem clearRouteSelection_keeps_active :
    (clearRouteSelection activeDemo).route.activeLinkIds = ["L1", "L2"] ∧
    (clearRouteSelection activeDemo).route.activeLengthM = some 1200 ∧
    (clearRouteSelection activeDemo).routePollingOn = true ∧
    (clearRouteSelection activeDemo).focusedMode = true ∧
    specStateOf (clearRouteSelection activeDemo).route = FSMState.Active := by
  decide

/-- C1 (amended): from any state, `clearRouteSelection` wipes the start/end
selection and the whole planned route (including the plan message), leaves
the active route, the route poll timer and the focused mode untouched, and
therefore returns the machine to `Idle` exactly when no active route
remains (otherwise it stays `Active`). -/
theorem clearRouteSelection_spec (s : RMState) :
    (clearRouteSelection s).route.startLinkId = none ∧
    (clearRouteSelection s).route.endLinkId = none ∧
    (clearRouteSelection s).route.plannedLinkIds = [] ∧
    (clearRouteSelection s).route.plannedLinkSet = [] ∧
    (clearRouteSelection s).route.plannedLengthM = none ∧
    (clearRouteSelection s).route.planMessage = none ∧
    (clearRouteSelection s).route.activeLinkIds = s.route.activeLinkIds ∧
    (clearRouteSelection s).route.activeLengthM = s.route.activeLengthM ∧
    (clearRouteSelection s).routePollingOn = s.routePollingOn ∧
    (clearRouteSelection s).focusedMode = s.focusedMode ∧
    specStateOf (clearRouteSelection s).route =
      (if s.route.activeLinkIds = [] then FSMState.Idle else FSMState.Active) := by
  refine ⟨rfl, rfl, rfl, rfl, rfl, rfl, rfl, rfl, rfl, rfl, ?_⟩
  by_cases h : s.route.activeLinkIds = [] <;>
    simp [clearRouteSelection, clearPlannedRoute, specStateOf, h]

/-- C2: `setActiveRoute` adopting a server route changes both endpoints of
the selection yet leaves `plannedLinkIds` holding the previously planned
links, so the claim that every endpoint change immediately clears the plan
fails on this input. -/
theorem setActiveRoute_keeps_plan :
    (setActiveRoute plannedDemo (some serverRouteDemo)).route.startLinkId ≠
      plannedDemo.route.startLinkId ∧
    (setActiveRoute plannedDemo (some serverRouteDemo)).route.endLinkId ≠
      plannedDemo.route.endLinkId ∧
    (setActiveRoute plannedDemo (some serverRouteDemo)).route.plannedLinkIds = ["P"] := by
  decide

/-- C2 (amended): `handleLinkSelection` clears `plannedLinkIds` in every
branch that changes `startLinkId` and in every branch that clears
`endLinkId`, and `clearRouteSelection` always clears it; but the branch that
fills in `endLinkId` as the second endpoint and `setActiveRoute`'s adoption
of server endpoints leave the plan untouched. -/
theorem selection_clears_plan (r : Route) (lid : String) (s : RMState) :
    ((handleLinkSelection r lid).startLinkId ≠ r.startLinkId →
      (handleLinkSelection r lid).plannedLinkIds = []) ∧
    ((handleLinkSelection r lid).endLinkId = none →
      (handleLinkSelection r lid).endLinkId ≠ r.endLinkId →
      (handleLinkSelection r lid).plannedLinkIds = []) ∧
    (clearRouteSelection s).route.plannedLinkIds = [] := by
  refine ⟨?_, ?_, rfl⟩
  · unfold handleLinkSelection
    split_ifs with h1 h2 h3 h4
    · intro ha
      exact absurd rfl ha
    · intro _
      rfl
    · intro _
      rfl
    · intro _
      rfl
    · intro ha
      exact absurd rfl ha
  · unfold handleLinkSelection
    split_ifs with h1 h2 h3 h4
    · intro _ ha
      exact absurd rfl ha
    · intro _ _
      rfl
    · intro _ _
      rfl
    · intro _ _
      rfl
    · intro ha _
      exact absurd ha (by simp)

theorem selection_clears_plan_witness :
    (handleLinkSelection plannedDemo.route "X").plannedLinkIds = [] :=
  (selection_clears_plan plannedDemo.route "X" plannedDemo).1 (by decide)

/-- C3: a chart-history tick with no chart request in flight while the page
is hidden still issues a request: `updateCharts` has no visibility guard, so
the claim that every poll kind issues zero requests while the page is not
visible fails for the chart kind. -/
theorem chart_tick_ignores_visibility : updateChartsIssues false true = true := rfl

theorem kindStep_invariant (k : KindState) (e : KindEvent)
    (h : k.outstanding = if k.inFlight then 1 else 0) :
    (kindStep k e).outstanding = if (kindStep k e).inFlight then 1 else 0 := by
  cases e with
  | tick allowed =>
    by_cases hf : k.inFlight
    · simp [kindStep, hf, h]
    · cases allowed
      · simp [kindStep, hf, h]
      · simp [kindStep, hf] at h
        simp [kindStep, hf, h]
  | resolve =>
    by_cases h0 : k.outstanding = 0
    · by_cases hf : k.inFlight
      · rw [h0] at h
        simp [hf] at h
      · simp [kindStep, h0, hf]
    · by_cases hf : k.inFlight
      · simp [hf] at h
        simp [kindStep, h0, h]
      · simp [hf] at h
        exact absurd h h0

theorem kindRun_invariant (evs : List KindEvent) : ∀ k : KindState,
    k.outstanding = (if k.inFlight then 1 else 0) →
    (kindRun k evs).outstanding = if (kindRun k evs).inFlight then 1 else 0 := by
  induction evs with
  | nil =>
    intro k h
    simpa [kindRun] using h
  | cons e rest ih =>
    intro k h
    simpa [kindRun, List.foldl_cons] using ih (kindStep k e) (kindStep_invariant k e h)

/-- C3 (amended): all three poll kinds are no-ops while their own request is
in flight (so each kind keeps at most one request outstanding at any time);
the full-state and route-scoped kinds are also no-ops while the page is
hidden, but the chart-history kind ignores visibility entirely; and a
full-state tick that fires while a route is active can only issue once the
longer focused interval has elapsed. -/
theorem poll_guard_spec :
    (∀ hidden active : Bool, ∀ now lastAt : ℚ,
      pollStateIssues true hidden active now lastAt = false) ∧
    (∀ hidden active : Bool, pollRouteStateIssues true hidden active = false) ∧
    (∀ hidden : Bool, updateChartsIssues true hidden = false) ∧
    (∀ inFlight active : Bool, ∀ now lastAt : ℚ,
      pollStateIssues inFlight true active now lastAt = false) ∧
    (∀ inFlight active : Bool, pollRouteStateIssues inFlight true active = false) ∧
    (∀ inFlight : Bool, updateChartsIssues inFlight true = !inFlight) ∧
    (∀ hidden : Bool, ∀ now lastAt : ℚ,
      pollStateIssues false hidden true now lastAt = true →
        now - lastAt ≥ focusedPollIntervalMs) ∧
    focusedPollIntervalMs > pollIntervalMs ∧
    (∀ evs : List KindEvent, (kindRun {} evs).outstanding ≤ 1) := by
  refine ⟨?_, ?_, ?_, ?_, ?_, ?_, ?_, ?_, ?_⟩
  · intro hidden active now lastAt
    simp [pollStateIssues]
  · intro hidden active
    simp [pollRouteStateIssues]
  · intro hidden
    simp [updateChartsIssues]
  · intro inFlight active now lastAt
    simp [pollStateIssues]
  · intro inFlight active
    simp [pollRouteStateIssues]
  · intro inFlight
    cases inFlight <;> rfl
  · intro hidden now lastAt h
    cases hidden
    · simpa [pollStateIssues] using h
    · simp [pollStateIssues] at h
  · norm_num [focusedPollIntervalMs, pollIntervalMs]
  · intro evs
    have h := kindRun_invariant evs {} (by rfl)
    rw [h]
    split <;> simp

theorem poll_guard_spec_witness :
    (kindRun {} [KindEvent.tick true, KindEvent.tick true, KindEvent.resolve,
      KindEvent.tick false]).outstanding ≤ 1 :=
  poll_guard_spec.2.2.2.2.2.2.2.2 _

/-- C7: a live road link with congestion index 0.9 viewed in live mode and
free of route overrides resolves to the danger bucket color on core and
glow, the danger weight 6 and opacity 1; if the same link is additionally a
member of the active route set, its glow color becomes the active-route
tint and its glow opacity is raised to at least the 0.45 active floor while
core color, weight and opacity keep their danger values. -/
theorem scenario_danger_style (route : Route)
    (hs : route.startLinkId ≠ some "L1") (he : route.endLinkId ≠ some "L1")
    (hp : "L1" ∉ route.plannedLinkSet) :
    ("L1" ∉ route.activeLinkIds →
      getLinkStyle "live" route scenarioLink "road" =
        { color := "#ff0055", glowColor := "#ff0055", weight := 6,
          opacity := 1, glowOpacity := 0.25 }) ∧
    ("L1" ∈ route.activeLinkIds →
      (getLinkStyle "live" route scenarioLink "road").color = "#ff0055" ∧
      (getLinkStyle "live" route scenarioLink "road").glowColor = "#22c55e" ∧
      (getLinkStyle "live" route scenarioLink "road").weight = 6 ∧
      (getLinkStyle "live" route scenarioLink "road").opacity = 1 ∧
      (getLinkStyle "live" route scenarioLink "road").glowOpacity ≥ 0.45) := by
  have hred : getLinkStyle "live" route scenarioLink "road" =
      applyRouteStyleOverrides route
        { color := "#ff0055", glowColor := "#ff0055", weight := 6,
          opacity := 1, glowOpacity := 0.25 } "L1" := by
    with_unfolding_all rfl
  have hs' : ¬(some "L1" = route.startLinkId) := fun hh => hs hh.symm
  have he' : ¬(some "L1" = route.endLinkId) := fun hh => he hh.symm
  constructor
  · intro ha
    rw [hred]
    simp [applyRouteStyleOverrides, hs', he', hp, ha]
  · intro ha
    refine ⟨?_, ?_, ?_, ?_, ?_⟩ <;> rw [hred] <;>
      simp [applyRouteStyleOverrides, hs', he', hp, ha, ge_iff_le, le_max_right]

theorem scenario_danger_style_witness :
    getLinkStyle "live" {} scenarioLink "road" =
      { color := "#ff0055", glowColor := "#ff0055", weight := 6,
        opacity := 1, glowOpacity := 0.25 } ∧
    (getLinkStyle "live" { activeLinkIds := ["L1"] } scenarioLink "road").glowColor =
      "#22c55e" :=
  ⟨(scenario_danger_style {} (by decide) (by decide) (by decide)).1 (by decide),
   ((scenario_danger_style { activeLinkIds := ["L1"] } (by decide) (by decide)
      (by decide)).2 (by decide)).2.1⟩

/-- C8: `planRoute` invoked with both endpoints selected (and no active
route, as in `BothSelected`) whose request fails keeps the endpoints
unchanged, stores a non-null failure message, wipes the plan contents, and
leaves the machine in `BothSelected`; the embedding is a total function, so
no exception escapes the action. -/
theorem planRoute_failure_spec (s : RMState) (a b : String) (msg : Option String)
    (hs : s.route.startLinkId = some a) (he : s.route.endLinkId = some b)
    (hact : s.route.activeLinkIds = []) :
    (planRoute s (PlanOutcome.failure msg)).route.startLinkId = some a ∧
    (planRoute s (PlanOutcome.failure msg)).route.endLinkId = some b ∧
    (planRoute s (PlanOutcome.failure msg)).route.planMessage ≠ none ∧
    (planRoute s (PlanOutcome.failure msg)).route.plannedLinkIds = [] ∧
    (planRoute s (PlanOutcome.failure msg)).route.plannedLengthM = none ∧
    specStateOf (planRoute s (PlanOutcome.failure msg)).route = FSMState.BothSelected := by
  have hcond : ¬(s.route.startLinkId = none ∨ s.route.endLinkId = none) := by
    simp [hs, he]
  unfold planRoute
  rw [if_neg hcond]
  refine ⟨hs, he, by simp, rfl, rfl, ?_⟩
  simp [specStateOf, setPlannedRoute, hs, he, hact]

theorem planRoute_failure_witness :
    (planRoute plannedDemo (PlanOutcome.failure (some ""))).route.planMessage ≠ none ∧
    specStateOf (planRoute plannedDemo (PlanOutcome.failure (some ""))).route =
      FSMState.BothSelected := by
  have h := planRoute_failure_spec plannedDemo "A" "B" (some "") rfl rfl rfl
  exact ⟨h.2.2.1, h.2.2.2.2.2⟩

/-- C9: a route-scoped poll resolving `active:false` while the machine is
`Active` with a surviving selection and plan does not transition to `Idle`:
the plan and endpoints are untouched, so the machine lands in `Planned`. -/
theorem route_poll_inactive_not_idle :
    specStateOf (pollRouteStateResolve activeDemo { active := false }).route =
      FSMState.Planned ∧
    (pollRouteStateResolve activeDemo { active := false }).route.plannedLinkIds =
      ["L1", "L2"] ∧
    (pollRouteStateResolve activeDemo { active := false }).route.startLinkId =
      some "A" := by
  decide

/-- C9 (amended): while a route is active, a route poll resolving
`active:false` — or `active:true` with a route whose `link_ids` is an empty
array — empties `activeLinkIds`, nulls the active length, stops route
polling and forces `focusedMode` off, while leaving the endpoints, the plan
and the plan message unchanged (so the machine returns to `Idle` only when
no selection or plan remains); a response with `active:true` and no route
leaves the state entirely unchanged. -/
theorem route_poll_inactive_spec (s : RMState) (h : s.route.activeLinkIds ≠ [])
    (r? : Option ServerRoute) (rt : ServerRoute) (hrt : rt.link_ids = some []) :
    ((pollRouteStateResolve s { active := false, route := r? }).route.activeLinkIds = [] ∧
     (pollRouteStateResolve s { active := false, route := r? }).route.activeLengthM = none ∧
     (pollRouteStateResolve s { active := false, route := r? }).routePollingOn = false ∧
     (pollRouteStateResolve s { active := false, route := r? }).focusedMode = false ∧
     (pollRouteStateResolve s { active := false, route := r? }).route.startLinkId =
       s.route.startLinkId ∧
     (pollRouteStateResolve s { active := false, route := r? }).route.endLinkId =
       s.route.endLinkId ∧
     (pollRouteStateResolve s { active := false, route := r? }).route.plannedLinkIds =
       s.route.plannedLinkIds ∧
     (pollRouteStateResolve s { active := false, route := r? }).route.planMessage =
       s.route.planMessage) ∧
    ((pollRouteStateResolve s { active := true, route := some rt }).route.activeLinkIds = [] ∧
     (pollRouteStateResolve s { active := true, route := some rt }).routePollingOn = false ∧
     (pollRouteStateResolve s { active := true, route := some rt }).focusedMode = false) ∧
    (pollRouteStateResolve s { active := true, route := none } = s) ∧
    (s.route.startLinkId = none → s.route.endLinkId = none →
      s.route.plannedLinkIds = [] →
      specStateOf (pollRouteStateResolve s { active := false, route := r? }).route =
        FSMState.Idle) := by
  have hres : pollRouteStateResolve s { active := false, route := r? } =
      setActiveRouteEmpty s := by
    simp [pollRouteStateResolve, h, setActiveRoute]
  have hlen : (0 : Nat) ≠ s.route.activeLinkIds.length := by
    intro hh
    exact h (List.length_eq_zero.mp hh.symm)
  have hres2 : pollRouteStateResolve s { active := true, route := some rt } =
      setActiveRouteEmpty s := by
    simp [pollRouteStateResolve, h, hrt, hlen, setActiveRoute]
  have hfoc : (setActiveRouteEmpty s).focusedMode = false := by
    simp [setActiveRouteEmpty, stopRoutePolling, setFocusedMode]
  refine ⟨?_, ?_, ?_, ?_⟩
  · rw [hres]
    exact ⟨by simp [setActiveRouteEmpty, stopRoutePolling, setFocusedMode],
      by simp [setActiveRouteEmpty, stopRoutePolling, setFocusedMode],
      by simp [setActiveRouteEmpty, stopRoutePolling, setFocusedMode],
      hfoc,
      by simp [setActiveRouteEmpty, stopRoutePolling, setFocusedMode],
      by simp [setActiveRouteEmpty, stopRoutePolling, setFocusedMode],
      by simp [setActiveRouteEmpty, stopRoutePolling, setFocusedMode],
      by simp [setActiveRouteEmpty, stopRoutePolling, setFocusedMode]⟩
  · rw [hres2]
    exact ⟨by simp [setActiveRouteEmpty, stopRoutePolling, setFocusedMode],
      by simp [setActiveRouteEmpty, stopRoutePolling, setFocusedMode], hfoc⟩
  · simp [pollRouteStateResolve, h]
  · intro h1 h2 h3
    rw [hres]
    simp [setActiveRouteEmpty, stopRoutePolling, setFocusedMode, specStateOf,
      h1, h2, h3]

theorem route_poll_inactive_witness :
    (pollRouteStateResolve activeDemo { active := false, route := none }).route.activeLinkIds
      = [] ∧
    (pollRouteStateResolve activeDemo { active := false, route := none }).routePollingOn
      = false :=
  ⟨(route_poll_inactive_spec activeDemo (by decide) none { link_ids := some [] } rfl).1.1,
   (route_poll_inactive_spec activeDemo (by decide) none
      { link_ids := some [] } rfl).1.2.2.1⟩

/-- C10: a live link entry whose `age_sec` is absent is rendered by the
marker sync as stale — stale CSS class and stale color — and its marker is
identical to the one computed for the same link with an age above the
staleness threshold; the marker stored by `updateLiveMarkers` for such an
entry is exactly this stale marker. -/
theorem marker_missing_age_stale (s : ReconState) (link : Link) (latLng : Point)
    (a : ℚ) (hage : link.age_sec = none) (ha : s.liveStaleThresholdSec < a) :
    (markerFor s link latLng).className = "live-marker live-marker-stale" ∧
    (markerFor s link latLng).color = "#64748b" ∧
    markerFor s link latLng = markerFor s { link with age_sec := some a } latLng ∧
    (s.showLiveMarkers = true → link.is_live = true →
      (getLinkCenter s link).2 = some latLng →
      alookup (updateLiveMarkers s [link]).liveMarkers link.id =
        some (markerFor (getLinkCenter s link).1 link latLng)) := by
  have hname : getLinkName s { link with age_sec := some a } = getLinkName s link := rfl
  refine ⟨?_, ?_, ?_, ?_⟩
  · simp [markerFor, markerIsStale, hage, markerClassOf]
  · simp [markerFor, markerIsStale, hage, markerColorOf]
  · simp [markerFor, markerIsStale, hage, ha, hname]
  · intro hm hl hc
    simp only [updateLiveMarkers, hm, Bool.true_eq_false, if_false, syncLiveMarkers,
      hl, if_true, hc]
    rw [alookup_filter_mem]
    simp [alookup_aset_self]

theorem marker_missing_age_stale_witness :
    (markerFor markerDemoState markerDemoLink (1, 1)).className =
      "live-marker live-marker-stale" ∧
    alookup (updateLiveMarkers markerDemoState [markerDemoLink]).liveMarkers "M1" =
      some (markerFor (getLinkCenter markerDemoState markerDemoLink).1
        markerDemoLink (1, 1)) := by
  have h := marker_missing_age_stale markerDemoState markerDemoLink (1, 1) 11
    rfl (by norm_num [markerDemoState])
  exact ⟨h.1, h.2.2.2 rfl rfl (by decide)⟩

theorem mergeMeta_coords (m : LinkMeta) (l : Link) :
    (mergeMeta m l).1.coordinates = m.coordinates ∧
    (mergeMeta m l).1.center = m.center := by
  cases hn : l.name <;> cases ht : l.type <;>
    simp [mergeMeta, hn, ht] <;> split_ifs <;> simp

theorem mergeMeta_not_changed {m : LinkMeta} {l : Link}
    (h : (mergeMeta m l).2 = false) : (mergeMeta m l).1 = m := by
  cases hn : l.name <;> cases ht : l.type <;>
    simp [mergeMeta, hn, ht] at h ⊢ <;> split_ifs at h ⊢ <;> simp_all

theorem mergeMeta_idem (m : LinkMeta) (l : Link) :
    (mergeMeta (mergeMeta m l).1 l).2 = false := by
  cases hn : l.name <;> cases ht : l.type <;>
    simp [mergeMeta, hn, ht] <;> split_ifs <;> simp_all

theorem mergeMeta_changed_congr {m m' : LinkMeta} (l : Link)
    (hn : m.name = m'.name) (ht : m.type = m'.type) :
    (mergeMeta m l).2 = (mergeMeta m' l).2 := by
  cases hnm : l.name <;> cases htm : l.type <;>
    simp [mergeMeta, hnm, htm, hn, ht] <;> split_ifs <;> simp_all

theorem mem_aset {α : Type} {mm : List (String × α)} {k : String} {v : α}
    {x : String × α} (h : x ∈ aset mm k v) : x = (k, v) ∨ x ∈ mm := by
  induction mm with
  | nil => simpa [aset] using h
  | cons p rest ih =>
    obtain ⟨a, b⟩ := p
    by_cases ha : a = k
    · simp [aset, ha] at h
      rcases h with h | h
      · exact Or.inl (by simp [h])
      · exact Or.inr (by simp [h])
    · simp [aset, ha] at h
      rcases h with h | h
      · exact Or.inr (by simp [h])
      · rcases ih h with h' | h'
        · exact Or.inl h'
        · exact Or.inr (by simp [h'])

theorem metaWF_alookup {mm : List (String × LinkMeta)} {k : String} {m : LinkMeta}
    (hwf : metaWF mm = true) (h : alookup mm k = some m) : metaOK m = true := by
  unfold metaWF at hwf
  exact List.all_eq_true.mp hwf _ (alookup_mem h)

theorem metaWF_aset {mm : List (String × LinkMeta)} {k : String} {v : LinkMeta}
    (hwf : metaWF mm = true) (hv : metaOK v = true) : metaWF (aset mm k v) = true := by
  unfold metaWF at hwf ⊢
  rw [List.all_eq_true] at hwf ⊢
  intro x hx
  rcases mem_aset hx with h | h
  · rw [h]
    exact hv
  · exact hwf x h

theorem getLinkMeta_fst (mm : List (String × LinkMeta)) (l : Link) :
    (getLinkMeta mm l).1 = mergedOf mm l := by
  unfold getLinkMeta mergedOf
  cases h : alookup mm l.id <;> simp [h]

theorem getLinkMeta_snd (mm : List (String × LinkMeta)) (l : Link) :
    (getLinkMeta mm l).2 = aset mm l.id (mergedOf mm l) ∨
    ((getLinkMeta mm l).2 = mm ∧ mergedOf mm l = ((alookup mm l.id).getD {})) := by
  unfold getLinkMeta mergedOf
  cases h : alookup mm l.id with
  | some m =>
    left
    simp [h]
  | none =>
    by_cases hc : (mergeMeta {} l).2 = true
    · left
      simp [h, hc]
    · right
      rw [Bool.not_eq_true] at hc
      simp [h, hc, mergeMeta_not_changed hc]

theorem getLinkMeta_lookup_self (mm : List (String × LinkMeta)) (l : Link) :
    ((alookup (getLinkMeta mm l).2 l.id).getD {}) = mergedOf mm l := by
  rcases getLinkMeta_snd mm l with h | ⟨h1, h2⟩
  · rw [h, alookup_aset_self]
    rfl
  · rw [h1, h2]

theorem getLinkMeta_lookup_ne (mm : List (String × LinkMeta)) (l : Link) (k : String)
    (h : k ≠ l.id) : alookup (getLinkMeta mm l).2 k = alookup mm k := by
  rcases getLinkMeta_snd mm l with h1 | ⟨h1, _⟩
  · rw [h1]
    exact alookup_aset_ne _ _ _ _ h
  · rw [h1]

theorem getLinkMeta_metaCoords (mm : List (String × LinkMeta)) (l : Link) (k : String) :
    metaCoords (getLinkMeta mm l).2 k = metaCoords mm k := by
  by_cases hk : k = l.id
  · subst hk
    unfold metaCoords
    rcases getLinkMeta_snd mm l with h1 | ⟨h1, _⟩
    · rw [h1, alookup_aset_self]
      cases hm : alookup mm l.id with
      | none =>
        simp only [mergedOf, hm, Option.getD_none, Option.bind]
        rw [(mergeMeta_coords _ _).1]
      | some m =>
        simp only [mergedOf, hm, Option.getD_some, Option.bind]
        rw [(mergeMeta_coords m l).1]
    · rw [h1]
  · unfold metaCoords
    rw [getLinkMeta_lookup_ne mm l k hk]

theorem getLinkMeta_WF {mm : List (String × LinkMeta)} (l : Link)
    (hwf : metaWF mm = true) : metaWF (getLinkMeta mm l).2 = true := by
  rcases getLinkMeta_snd mm l with h1 | ⟨h1, _⟩
  · rw [h1]
    apply metaWF_aset hwf
    have h2 := (mergeMeta_coords ((alookup mm l.id).getD {}) l).1
    unfold metaOK mergedOf
    rw [h2]
    cases hm : alookup mm l.id with
    | none => simp
    | some m =>
      have h3 := metaWF_alookup hwf hm
      unfold metaOK at h3
      simpa [hm] using h3
  · rw [h1]
    exact hwf

theorem create_frame (s : ReconState) (i : String) (c : Option (List Point))
    (t : Option String) :
    (createPolylineForLink s i c t).1.linkMeta = s.linkMeta ∧
    (createPolylineForLink s i c t).1.linkStateCache = s.linkStateCache ∧
    (createPolylineForLink s i c t).1.linkStyleCache = s.linkStyleCache ∧
    (createPolylineForLink s i c t).1.liveMarkers = s.liveMarkers ∧
    (createPolylineForLink s i c t).1.route = s.route ∧
    (createPolylineForLink s i c t).1.viewMode = s.viewMode ∧
    (createPolylineForLink s i c t).1.showLiveMarkers = s.showLiveMarkers ∧
    (createPolylineForLink s i c t).1.liveStaleThresholdSec = s.liveStaleThresholdSec := by
  unfold createPolylineForLink
  rcases h1 : alookup s.polylines i with _ | pg
  · rcases h2 : c with _ | cs
    · simp
    · simp only []
      split <;> simp
  · simp

theorem create_poly_ne (s : ReconState) (i : String) (c : Option (List Point))
    (t : Option String) (k : String) (h : k ≠ i) :
    alookup (createPolylineForLink s i c t).1.polylines k = alookup s.polylines k := by
  unfold createPolylineForLink
  rcases h1 : alookup s.polylines i with _ | pg
  · rcases h2 : c with _ | cs
    · simp
    · simp only []
      split
      · simp
      · simp only []
        exact alookup_aset_ne _ _ _ _ h
  · simp

theorem create_poly_some (s : ReconState) (i : String) (c : Option (List Point))
    (t : Option String) (k : String) (pg : PolyGroup)
    (h : alookup s.polylines k = some pg) :
    alookup (createPolylineForLink s i c t).1.polylines k = some pg := by
  by_cases hk : k = i
  · subst hk
    unfold createPolylineForLink
    simp [h]
  · rw [create_poly_ne s i c t k hk]
    exact h

theorem create_events (s : ReconState) (i : String) (c : Option (List Point))
    (t : Option String) :
    ((createPolylineForLink s i c t).2 = [] ∧ (createPolylineForLink s i c t).1 = s) ∨
    ((createPolylineForLink s i c t).2 = [WriteEvent.createEntity i] ∧
      alookup s.polylines i = none ∧
      alookup (createPolylineForLink s i c t).1.polylines i ≠ none) := by
  unfold createPolylineForLink
  rcases h1 : alookup s.polylines i with _ | pg
  · rcases h2 : c with _ | cs
    · left
      simp
    · simp only []
      split
      · left
        simp
      · right
        simp [h1, alookup_aset_self]
  · left
    simp

theorem als_frame (s : ReconState) (i : String) (st : LinkStyle) :
    (applyLinkStyle s i st).1.linkMeta = s.linkMeta ∧
    (applyLinkStyle s i st).1.linkStateCache = s.linkStateCache ∧
    (applyLinkStyle s i st).1.polylines = s.polylines ∧
    (applyLinkStyle s i st).1.liveMarkers = s.liveMarkers ∧
    (applyLinkStyle s i st).1.route = s.route ∧
    (applyLinkStyle s i st).1.viewMode = s.viewMode ∧
    (applyLinkStyle s i st).1.showLiveMarkers = s.showLiveMarkers ∧
    (applyLinkStyle s i st).1.liveStaleThresholdSec = s.liveStaleThresholdSec := by
  unfold applyLinkStyle
  rcases h : alookup s.linkStyleCache i with _ | prev
  · simp
  · simp only []
    split <;> simp

theorem als_style_ne (s : ReconState) (i : String) (st : LinkStyle) (k : String)
    (h : k ≠ i) :
    alookup (applyLinkStyle s i st).1.linkStyleCache k = alookup s.linkStyleCache k := by
  unfold applyLinkStyle
  rcases hm : alookup s.linkStyleCache i with _ | prev
  · simp only []
    exact alookup_aset_ne _ _ _ _ h
  · simp only []
    split
    · simp
    · simp only []
      exact alookup_aset_ne _ _ _ _ h

theorem als_style_self (s : ReconState) (i : String) (st : LinkStyle) :
    alookup (applyLinkStyle s i st).1.linkStyleCache i = some st := by
  unfold applyLinkStyle
  rcases hm : alookup s.linkStyleCache i with _ | prev
  · simp [alookup_aset_self]
  · simp only []
    split
    · simp only []
      rw [hm]
      simp_all
    · simp [alookup_aset_self]

theorem als_events (s : ReconState) (i : String) (st : LinkStyle) :
    ∀ e ∈ (applyLinkStyle s i st).2, e = WriteEvent.writeStyle i st := by
  unfold applyLinkStyle
  rcases hm : alookup s.linkStyleCache i with _ | prev
  · simp
  · simp only []
    split <;> simp

theorem als_skip (s : ReconState) (i : String) (st : LinkStyle)
    (h : alookup s.linkStyleCache i = some st) : applyLinkStyle s i st = (s, []) := by
  unfold applyLinkStyle
  simp [h]

theorem mergedOf_coords (mm : List (String × LinkMeta)) (l : Link) :
    (mergedOf mm l).coordinates = metaCoords mm l.id := by
  unfold mergedOf metaCoords
  cases hm : alookup mm l.id <;> simp [hm, (mergeMeta_coords _ l).1]

theorem hasGeomB_mergedOf (mm : List (String × LinkMeta)) (l : Link) :
    hasGeomB (mergedOf mm l) l = geomKnown mm l := by
  unfold hasGeomB geomKnown
  rw [mergedOf_coords]

theorem getLinkMeta_noop {mm : List (String × LinkMeta)} {l : Link}
    (h : (mergeMeta ((alookup mm l.id).getD {}) l).2 = false) :
    getLinkMeta mm l = (((alookup mm l.id).getD {}), mm) := by
  unfold getLinkMeta
  cases hm : alookup mm l.id with
  | some m =>
    rw [hm] at h
    simp only [Option.getD_some] at h ⊢
    rw [mergeMeta_not_changed h, aset_lookup_eq hm]
  | none =>
    rw [hm] at h
    simp only [Option.getD_none] at h ⊢
    simp [h, mergeMeta_not_changed h]

theorem create_makes (s : ReconState) (i : String) (cs : List Point) (t : Option String)
    (hnone : alookup s.polylines i = none) (hlen : 1 < cs.length) :
    alookup (createPolylineForLink s i (some cs) t).1.polylines i ≠ none := by
  unfold createPolylineForLink
  simp [hnone, Nat.not_lt.mpr hlen, alookup_aset_self]

theorem create_noGeom (s : ReconState) (i : String) (m : LinkMeta) (l : Link)
    (t : Option String) (hg : hasGeomB m l = false) :
    createPolylineForLink s i (orO m.coordinates l.coordinates) t = (s, []) := by
  unfold hasGeomB at hg
  unfold createPolylineForLink
  rcases ho : orO m.coordinates l.coordinates with _ | cs
  · cases alookup s.polylines i <;> simp
  · rw [ho] at hg
    simp only [decide_eq_false_iff_not, Nat.not_lt] at hg
    have hlt : cs.length < 2 := by omega
    cases alookup s.polylines i <;> simp [hlt]

theorem ep_frame (s : ReconState) (l : Link) (c : Option (List Point)) (t : String) :
    (ensurePolyline s l c t).1.linkMeta = s.linkMeta ∧
    (ensurePolyline s l c t).1.linkStateCache = s.linkStateCache ∧
    (ensurePolyline s l c t).1.linkStyleCache = s.linkStyleCache ∧
    (ensurePolyline s l c t).1.liveMarkers = s.liveMarkers ∧
    (ensurePolyline s l c t).1.route = s.route ∧
    (ensurePolyline s l c t).1.viewMode = s.viewMode ∧
    (ensurePolyline s l c t).1.showLiveMarkers = s.showLiveMarkers ∧
    (ensurePolyline s l c t).1.liveStaleThresholdSec = s.liveStaleThresholdSec := by
  unfold ensurePolyline
  rcases h : alookup s.polylines l.id with _ | pg
  · simp only [h]
    exact create_frame s l.id c (some t)
  · simp [h]

theorem ep_poly_ne (s : ReconState) (l : Link) (c : Option (List Point)) (t : String)
    (k : String) (hk : k ≠ l.id) :
    alookup (ensurePolyline s l c t).1.polylines k = alookup s.polylines k := by
  unfold ensurePolyline
  rcases h : alookup s.polylines l.id with _ | pg
  · simp only [h]
    exact create_poly_ne s l.id c (some t) k hk
  · simp [h]

theorem ep_poly_some (s : ReconState) (l : Link) (c : Option (List Point)) (t : String)
    (k : String) (pg : PolyGroup) (h : alookup s.polylines k = some pg) :
    alookup (ensurePolyline s l c t).1.polylines k = some pg := by
  unfold ensurePolyline
  rcases h2 : alookup s.polylines l.id with _ | pg2
  · simp only [h2]
    exact create_poly_some s l.id c (some t) k pg h
  · simp only [h2]
    exact h

theorem ep_events (s : ReconState) (l : Link) (c : Option (List Point)) (t : String) :
    ((ensurePolyline s l c t).2 = [] ∧ (ensurePolyline s l c t).1 = s) ∨
    ((ensurePolyline s l c t).2 = [WriteEvent.createEntity l.id] ∧
      alookup s.polylines l.id = none ∧
      alookup (ensurePolyline s l c t).1.polylines l.id ≠ none) := by
  unfold ensurePolyline
  rcases h : alookup s.polylines l.id with _ | pg
  · simp only [h]
    rcases create_events s l.id c (some t) with h1 | ⟨h1, _, h3⟩
    · exact Or.inl h1
    · exact Or.inr ⟨h1, trivial, h3⟩
  · simp [h]

theorem ep_of_some (s : ReconState) (l : Link) (c : Option (List Point)) (t : String)
    (pg : PolyGroup) (h : alookup s.polylines l.id = some pg) :
    ensurePolyline s l c t = (s, []) := by
  unfold ensurePolyline
  simp [h]

theorem ep_noGeom (s : ReconState) (l : Link) (t : String) (m : LinkMeta)
    (hg : hasGeomB m l = false) :
    ensurePolyline s l (orO m.coordinates l.coordinates) t = (s, []) := by
  unfold ensurePolyline
  rcases h : alookup s.polylines l.id with _ | pg
  · simp only [h]
    exact create_noGeom s l.id m l (some t) hg
  · simp [h]

theorem ep_geom (s : ReconState) (l : Link) (t : String) (m : LinkMeta)
    (hg : hasGeomB m l = true) :
    alookup (ensurePolyline s l (orO m.coordinates l.coordinates) t).1.polylines l.id ≠
      none := by
  unfold ensurePolyline
  rcases h : alookup s.polylines l.id with _ | pg
  · simp only [h]
    unfold hasGeomB at hg
    rcases ho : orO m.coordinates l.coordinates with _ | cs
    · rw [ho] at hg
      simp at hg
    · rw [ho] at hg
      simp only [decide_eq_true_eq] at hg
      exact create_makes s l.id cs (some t) h hg
  · simp [h]

theorem sp_none (s : ReconState) (link : Link) (type name : String)
    (h : alookup s.polylines link.id = none) :
    stylePhase s link type name = (s, []) := by
  unfold stylePhase
  simp [h]

theorem sp_frame (s : ReconState) (link : Link) (type name : String) :
    (stylePhase s link type name).1.linkMeta = s.linkMeta ∧
    (stylePhase s link type name).1.polylines = s.polylines ∧
    (stylePhase s link type name).1.liveMarkers = s.liveMarkers ∧
    (stylePhase s link type name).1.route = s.route ∧
    (stylePhase s link type name).1.viewMode = s.viewMode ∧
    (stylePhase s link type name).1.showLiveMarkers = s.showLiveMarkers ∧
    (stylePhase s link type name).1.liveStaleThresholdSec = s.liveStaleThresholdSec := by
  unfold stylePhase
  rcases h : alookup s.polylines link.id with _ | pg
  · simp [h]
  · simp only [h]
    obtain ⟨am, asc, ap, amk, ar, av, ash, ath⟩ := als_frame s link.id
      (getLinkStyle s.viewMode s.route link type)
    exact ⟨by simp [am], by simp [ap], by simp [amk], by simp [ar], by simp [av],
      by simp [ash], by simp [ath]⟩

theorem sp_style_ne (s : ReconState) (link : Link) (type name : String) (k : String)
    (hk : k ≠ link.id) :
    alookup (stylePhase s link type name).1.linkStyleCache k =
      alookup s.linkStyleCache k := by
  unfold stylePhase
  rcases h : alookup s.polylines link.id with _ | pg
  · simp [h]
  · simp only [h]
    simpa using als_style_ne s link.id (getLinkStyle s.viewMode s.route link type) k hk

theorem sp_state_ne (s : ReconState) (link : Link) (type name : String) (k : String)
    (hk : k ≠ link.id) :
    alookup (stylePhase s link type name).1.linkStateCache k =
      alookup s.linkStateCache k := by
  unfold stylePhase
  rcases h : alookup s.polylines link.id with _ | pg
  · simp [h]
  · simp only [h]
    have h1 := alookup_aset_ne ((applyLinkStyle s link.id
      (getLinkStyle s.viewMode s.route link type)).1.linkStateCache) link.id k
      (cachedLinkState link name type) hk
    have h2 := (als_frame s link.id (getLinkStyle s.viewMode s.route link type)).2.1
    rw [h1, h2]

theorem sp_self (s : ReconState) (link : Link) (type name : String) (pg : PolyGroup)
    (h : alookup s.polylines link.id = some pg) :
    alookup (stylePhase s link type name).1.linkStyleCache link.id =
      some (getLinkStyle s.viewMode s.route link type) ∧
    alookup (stylePhase s link type name).1.linkStateCache link.id =
      some (cachedLinkState link name type) := by
  unfold stylePhase
  simp only [h]
  constructor
  · simpa using als_style_self s link.id (getLinkStyle s.viewMode s.route link type)
  · simp [alookup_aset_self]

theorem sp_events (s : ReconState) (link : Link) (type name : String) :
    ∀ e ∈ (stylePhase s link type name).2,
      e = WriteEvent.writeStyle link.id (getLinkStyle s.viewMode s.route link type) := by
  unfold stylePhase
  rcases h : alookup s.polylines link.id with _ | pg
  · simp [h]
  · simp only [h]
    intro e he
    exact als_events s link.id (getLinkStyle s.viewMode s.route link type) e
      (by simpa using he)

theorem sp_skip (s : ReconState) (link : Link) (type name : String)
    (h1 : alookup s.linkStyleCache link.id =
      some (getLinkStyle s.viewMode s.route link type))
    (h2 : alookup s.linkStateCache link.id = some (cachedLinkState link name type)) :
    stylePhase s link type name = (s, []) := by
  unfold stylePhase
  rcases h : alookup s.polylines link.id with _ | pg
  · simp [h]
  · simp only [h]
    rw [als_skip s link.id (getLinkStyle s.viewMode s.route link type) h1]
    simp [aset_lookup_eq h2]

theorem uls_props (s : ReconState) (l : Link) :
    ((updateLinkState s l).1.route = s.route ∧
     (updateLinkState s l).1.viewMode = s.viewMode ∧
     (updateLinkState s l).1.showLiveMarkers = s.showLiveMarkers ∧
     (updateLinkState s l).1.liveStaleThresholdSec = s.liveStaleThresholdSec ∧
     (updateLinkState s l).1.liveMarkers = s.liveMarkers) ∧
    (∀ k, k ≠ l.id → alookup (updateLinkState s l).1.linkMeta k = alookup s.linkMeta k) ∧
    (∀ k, k ≠ l.id →
      alookup (updateLinkState s l).1.polylines k = alookup s.polylines k) ∧
    (∀ k, k ≠ l.id →
      alookup (updateLinkState s l).1.linkStyleCache k = alookup s.linkStyleCache k) ∧
    (∀ k, k ≠ l.id →
      alookup (updateLinkState s l).1.linkStateCache k = alookup s.linkStateCache k) ∧
    (∀ k pg, alookup s.polylines k = some pg →
      alookup (updateLinkState s l).1.polylines k = some pg) ∧
    (∀ k, metaCoords (updateLinkState s l).1.linkMeta k = metaCoords s.linkMeta k) ∧
    (metaWF s.linkMeta = true → metaWF (updateLinkState s l).1.linkMeta = true) := by
  by_cases hid : l.id = ""
  · simp [updateLinkState, hid]
  · simp only [updateLinkState, hid, if_false]
    refine ⟨⟨?_, ?_, ?_, ?_, ?_⟩, ?_, ?_, ?_, ?_, ?_, ?_, ?_⟩
    · rw [(sp_frame _ _ _ _).2.2.2.1, (ep_frame _ _ _ _).2.2.2.2.1]
    · rw [(sp_frame _ _ _ _).2.2.2.2.1, (ep_frame _ _ _ _).2.2.2.2.2.1]
    · rw [(sp_frame _ _ _ _).2.2.2.2.2.1, (ep_frame _ _ _ _).2.2.2.2.2.2.1]
    · rw [(sp_frame _ _ _ _).2.2.2.2.2.2, (ep_frame _ _ _ _).2.2.2.2.2.2.2]
    · rw [(sp_frame _ _ _ _).2.2.1, (ep_frame _ _ _ _).2.2.2.1]
    · intro k hk
      rw [(sp_frame _ _ _ _).1, (ep_frame _ _ _ _).1]
      exact getLinkMeta_lookup_ne s.linkMeta l k hk
    · intro k hk
      rw [(sp_frame _ _ _ _).2.1, ep_poly_ne _ _ _ _ k hk]
    · intro k hk
      rw [sp_style_ne _ _ _ _ k hk, (ep_frame _ _ _ _).2.2.1]
    · intro k hk
      rw [sp_state_ne _ _ _ _ k hk, (ep_frame _ _ _ _).2.1]
    · intro k pg hpk
      rw [(sp_frame _ _ _ _).2.1]
      exact ep_poly_some _ _ _ _ k pg (by simpa using hpk)
    · intro k
      rw [(sp_frame _ _ _ _).1, (ep_frame _ _ _ _).1]
      exact getLinkMeta_metaCoords s.linkMeta l k
    · intro hwf
      rw [(sp_frame _ _ _ _).1, (ep_frame _ _ _ _).1]
      exact getLinkMeta_WF l hwf

theorem uls_events (s : ReconState) (l : Link) :
    (∀ j, WriteEvent.createEntity j ∈ (updateLinkState s l).2 →
      j = l.id ∧ alookup s.polylines j = none ∧
      alookup (updateLinkState s l).1.polylines j ≠ none) ∧
    (∀ j, (updateLinkState s l).2.count (WriteEvent.createEntity j) ≤ 1) ∧
    (∀ k, alookup s.polylines k = none →
      WriteEvent.createEntity k ∉ (updateLinkState s l).2 →
      alookup (updateLinkState s l).1.polylines k = none) := by
  by_cases hid : l.id = ""
  · refine ⟨?_, ?_, ?_⟩ <;> simp [updateLinkState, hid]
  · simp only [updateLinkState, hid, if_false]
    generalize hP : getLinkMeta s.linkMeta l = P
    generalize hQ : ensurePolyline { s with linkMeta := P.2 } l
      (orO P.1.coordinates l.coordinates) (metaType P.1 l) = Q
    have hQs : alookup ({ s with linkMeta := P.2 } : ReconState).polylines l.id =
        alookup s.polylines l.id := rfl
    have hep := ep_events { s with linkMeta := P.2 } l
      (orO P.1.coordinates l.coordinates) (metaType P.1 l)
    rw [hQ] at hep
    have hspev := sp_events Q.1 l (metaType P.1 l) (metaName P.1 l)
    have hsppoly := (sp_frame Q.1 l (metaType P.1 l) (metaName P.1 l)).2.1
    refine ⟨?_, ?_, ?_⟩
    · intro j hj
      rcases List.mem_append.mp hj with hj | hj
      · rcases hep with ⟨he, _⟩ | ⟨he, hn, hs⟩
        · rw [he] at hj
          simp at hj
        · rw [he] at hj
          simp at hj
          subst hj
          refine ⟨rfl, by rw [← hQs]; exact hn, ?_⟩
          rw [hsppoly]
          exact hs
      · have := hspev _ hj
        simp at this
    · intro j
      rw [List.count_append]
      have hc2 : (stylePhase Q.1 l (metaType P.1 l) (metaName P.1 l)).2.count
          (WriteEvent.createEntity j) = 0 := by
        rw [List.count_eq_zero]
        intro hmem
        have := hspev _ hmem
        simp at this
      rw [hc2]
      rcases hep with ⟨he, _⟩ | ⟨he, _, _⟩ <;>
        (rw [he]; simp [List.count_cons]; try (split <;> simp))
    · intro k hk hmem
      rw [hsppoly]
      by_cases hkl : k = l.id
      · subst hkl
        rcases hep with ⟨he, hstate⟩ | ⟨he, _, _⟩
        · rw [hstate]
          exact hk
        · exfalso
          apply hmem
          rw [he]
          simp
      · have := ep_poly_ne { s with linkMeta := P.2 } l
          (orO P.1.coordinates l.coordinates) (metaType P.1 l) k hkl
        rw [hQ] at this
        rw [this]
        exact hk

theorem uls_geom_creates (s : ReconState) (l : Link) (hid : l.id ≠ "")
    (hg : geomKnown s.linkMeta l = true) :
    alookup (updateLinkState s l).1.polylines l.id ≠ none := by
  simp only [updateLinkState, hid, if_false]
  rw [(sp_frame _ _ _ _).2.1]
  have hfst := getLinkMeta_fst s.linkMeta l
  rw [hfst]
  exact ep_geom _ l _ (mergedOf s.linkMeta l) (by rw [hasGeomB_mergedOf]; exact hg)

theorem uls_settles (s : ReconState) (l : Link) :
    settledFor (updateLinkState s l).1 l := by
  by_cases hid : l.id = ""
  · exact Or.inl hid
  · right
    simp only [updateLinkState, hid, if_false]
    generalize hP : getLinkMeta s.linkMeta l = P
    have hP1 : P.1 = mergedOf s.linkMeta l := by
      rw [← hP]
      exact getLinkMeta_fst s.linkMeta l
    have hPself : ((alookup P.2 l.id).getD {}) = mergedOf s.linkMeta l := by
      rw [← hP]
      exact getLinkMeta_lookup_self s.linkMeta l
    generalize hQ : ensurePolyline { s with linkMeta := P.2 } l
      (orO P.1.coordinates l.coordinates) (metaType P.1 l) = Q
    have hmeta : settledMeta (stylePhase Q.1 l (metaType P.1 l) (metaName P.1 l)).1 l =
        mergedOf s.linkMeta l := by
      unfold settledMeta
      rw [(sp_frame _ _ _ _).1]
      have hqm : Q.1.linkMeta = P.2 := by
        rw [← hQ]
        exact (ep_frame _ _ _ _).1
      rw [hqm]
      exact hPself
    have hgeomQ : geomKnown s.linkMeta l = true →
        alookup Q.1.polylines l.id ≠ none := by
      intro hg
      have h := ep_geom { s with linkMeta := P.2 } l (metaType P.1 l)
        (mergedOf s.linkMeta l) (by rw [hasGeomB_mergedOf]; exact hg)
      rw [← hP1, hQ] at h
      exact h
    refine ⟨?_, ?_, ?_⟩
    · rw [hmeta]
      exact mergeMeta_idem _ l
    · intro hnone
      rw [hmeta, hasGeomB_mergedOf]
      by_contra hg
      simp only [Bool.not_eq_false] at hg
      rw [(sp_frame _ _ _ _).2.1] at hnone
      exact hgeomQ hg hnone
    · intro hsome
      rw [(sp_frame _ _ _ _).2.1] at hsome
      rcases hq : alookup Q.1.polylines l.id with _ | pg
      · exact absurd hq hsome
      · have hself := sp_self Q.1 l (metaType P.1 l) (metaName P.1 l) pg hq
        have hv : (stylePhase Q.1 l (metaType P.1 l) (metaName P.1 l)).1.viewMode =
            s.viewMode := by
          rw [(sp_frame _ _ _ _).2.2.2.2.1]
          rw [← hQ, (ep_frame _ _ _ _).2.2.2.2.2.1]
        have hrt : (stylePhase Q.1 l (metaType P.1 l) (metaName P.1 l)).1.route =
            s.route := by
          rw [(sp_frame _ _ _ _).2.2.2.1]
          rw [← hQ, (ep_frame _ _ _ _).2.2.2.2.1]
        have hqv : Q.1.viewMode = s.viewMode := by
          rw [← hQ]
          exact (ep_frame _ _ _ _).2.2.2.2.2.1
        have hqr : Q.1.route = s.route := by
          rw [← hQ]
          exact (ep_frame _ _ _ _).2.2.2.2.1
        constructor
        · rw [hself.1]
          unfold settledStyle
          rw [hmeta, hv, hrt, hqv, hqr, hP1]
        · rw [hself.2]
          unfold settledCached
          rw [hmeta, hP1]

theorem uls_settled_identity (s : ReconState) (l : Link) (hset : settledFor s l) :
    updateLinkState s l = (s, []) := by
  by_cases hid : l.id = ""
  · simp [updateLinkState, hid]
  · rcases hset with h | ⟨h1, h2, h3⟩
    · exact absurd h hid
    · simp only [updateLinkState, hid, if_false]
      have hnoop2 : getLinkMeta s.linkMeta l = (settledMeta s l, s.linkMeta) :=
        getLinkMeta_noop h1
      rw [hnoop2]
      have heta : ({ s with linkMeta := s.linkMeta } : ReconState) = s := rfl
      rw [heta]
      rcases hpoly : alookup s.polylines l.id with _ | pg
      · rw [ep_noGeom s l _ (settledMeta s l) (h2 hpoly), sp_none s l _ _ hpoly]
        simp
      · rw [ep_of_some s l _ _ pg hpoly]
        have h3' := h3 (by rw [hpoly]; exact fun hc => Option.noConfusion hc)
        rw [sp_skip s l _ _ h3'.1 h3'.2]
        simp

theorem uls_preserves_settled (s : ReconState) (l link : Link)
    (hset : settledFor s link) (hne : link.id ≠ l.id) :
    settledFor (updateLinkState s l).1 link := by
  rcases hset with h | ⟨h1, h2, h3⟩
  · exact Or.inl h
  · right
    obtain ⟨hframe, hmeta, hpoly, hstyle, hstate, _, _, _⟩ := uls_props s l
    have hm := hmeta link.id hne
    have hp := hpoly link.id hne
    have hst := hstyle link.id hne
    have hsc := hstate link.id hne
    have hsm : settledMeta (updateLinkState s l).1 link = settledMeta s link := by
      unfold settledMeta
      rw [hm]
    have hss : settledStyle (updateLinkState s l).1 link = settledStyle s link := by
      unfold settledStyle
      rw [hsm, hframe.2.1, hframe.1]
    have hscached : settledCached (updateLinkState s l).1 link = settledCached s link := by
      unfold settledCached
      rw [hsm]
    refine ⟨?_, ?_, ?_⟩
    · rw [hsm]
      exact h1
    · intro hnone
      rw [hsm]
      exact h2 (by rw [hp] at hnone; exact hnone)
    · intro hsome
      rw [hst, hsc, hss, hscached]
      exact h3 (by rw [hp] at hsome; exact hsome)

theorem rl_frame (links : List Link) : ∀ s : ReconState,
    (reconcileLinks s links).1.route = s.route ∧
    (reconcileLinks s links).1.viewMode = s.viewMode ∧
    (reconcileLinks s links).1.showLiveMarkers = s.showLiveMarkers ∧
    (reconcileLinks s links).1.liveStaleThresholdSec = s.liveStaleThresholdSec ∧
    (reconcileLinks s links).1.liveMarkers = s.liveMarkers := by
  induction links with
  | nil =>
    intro s
    simp [reconcileLinks]
  | cons l rest ih =>
    intro s
    simp only [reconcileLinks]
    obtain ⟨r1, r2, r3, r4, r5⟩ := ih (updateLinkState s l).1
    obtain ⟨⟨u1, u2, u3, u4, u5⟩, _⟩ := uls_props s l
    exact ⟨by rw [r1, u1], by rw [r2, u2], by rw [r3, u3], by rw [r4, u4],
      by rw [r5, u5]⟩

theorem rl_poly_some (links : List Link) :
    ∀ (s : ReconState) (k : String) (pg : PolyGroup),
    alookup s.polylines k = some pg →
    alookup (reconcileLinks s links).1.polylines k = some pg := by
  induction links with
  | nil =>
    intro s k pg h
    simpa [reconcileLinks] using h
  | cons l rest ih =>
    intro s k pg h
    simp only [reconcileLinks]
    exact ih _ k pg ((uls_props s l).2.2.2.2.2.1 k pg h)

theorem rl_metaCoords (links : List Link) : ∀ (s : ReconState) (k : String),
    metaCoords (reconcileLinks s links).1.linkMeta k = metaCoords s.linkMeta k := by
  induction links with
  | nil =>
    intro s k
    simp [reconcileLinks]
  | cons l rest ih =>
    intro s k
    simp only [reconcileLinks]
    rw [ih _ k, (uls_props s l).2.2.2.2.2.2.1 k]

theorem rl_WF (links : List Link) : ∀ s : ReconState, metaWF s.linkMeta = true →
    metaWF (reconcileLinks s links).1.linkMeta = true := by
  induction links with
  | nil =>
    intro s hwf
    simpa [reconcileLinks] using hwf
  | cons l rest ih =>
    intro s hwf
    simp only [reconcileLinks]
    exact ih _ ((uls_props s l).2.2.2.2.2.2.2 hwf)

theorem rl_create_mem (links : List Link) : ∀ (s : ReconState) (j : String),
    WriteEvent.createEntity j ∈ (reconcileLinks s links).2 →
    alookup s.polylines j = none := by
  induction links with
  | nil =>
    intro s j h
    simp [reconcileLinks] at h
  | cons l rest ih =>
    intro s j h
    simp only [reconcileLinks] at h
    rcases List.mem_append.mp h with h | h
    · exact ((uls_events s l).1 j h).2.1
    · have h2 := ih _ j h
      by_contra hc
      rcases Option.ne_none_iff_exists.mp hc with ⟨pg, hpg⟩
      rw [(uls_props s l).2.2.2.2.2.1 j pg hpg.symm] at h2
      exact Option.noConfusion h2

theorem rl_create_count (links : List Link) : ∀ (s : ReconState) (j : String),
    (reconcileLinks s links).2.count (WriteEvent.createEntity j) ≤ 1 := by
  induction links with
  | nil =>
    intro s j
    simp [reconcileLinks]
  | cons l rest ih =>
    intro s j
    simp only [reconcileLinks, List.count_append]
    by_cases hmem : WriteEvent.createEntity j ∈ (updateLinkState s l).2
    · obtain ⟨hj, hnone, hsome⟩ := (uls_events s l).1 j hmem
      have hrest : WriteEvent.createEntity j ∉
          (reconcileLinks (updateLinkState s l).1 rest).2 := by
        intro hr
        exact hsome (rl_create_mem rest _ j hr)
      rw [List.count_eq_zero.mpr hrest]
      have hcnt := (uls_events s l).2.1 j
      omega
    · rw [List.count_eq_zero.mpr hmem]
      have hcnt := ih (updateLinkState s l).1 j
      omega

theorem rl_no_create_none (links : List Link) : ∀ (s : ReconState) (k : String),
    alookup s.polylines k = none →
    WriteEvent.createEntity k ∉ (reconcileLinks s links).2 →
    alookup (reconcileLinks s links).1.polylines k = none := by
  induction links with
  | nil =>
    intro s k h _
    simpa [reconcileLinks] using h
  | cons l rest ih =>
    intro s k h hmem
    simp only [reconcileLinks] at hmem ⊢
    have hmem1 : WriteEvent.createEntity k ∉ (updateLinkState s l).2 := fun hc =>
      hmem (List.mem_append.mpr (Or.inl hc))
    have hmem2 : WriteEvent.createEntity k ∉
        (reconcileLinks (updateLinkState s l).1 rest).2 := fun hc =>
      hmem (List.mem_append.mpr (Or.inr hc))
    exact ih _ k ((uls_events s l).2.2 k h hmem1) hmem2

theorem rl_geom_creates (links : List Link) : ∀ (s : ReconState) (k : String),
    k ≠ "" →
    (∃ l ∈ links, l.id = k ∧ geomKnown s.linkMeta l = true) →
    alookup (reconcileLinks s links).1.polylines k ≠ none := by
  induction links with
  | nil =>
    intro s k _ h
    simp at h
  | cons l rest ih =>
    intro s k hk h
    simp only [reconcileLinks]
    rcases h with ⟨l', hl', hid, hg⟩
    rcases List.mem_cons.mp hl' with heq | hl'
    · subst heq
      subst hid
      have h1 : alookup (updateLinkState s l').1.polylines l'.id ≠ none :=
        uls_geom_creates s l' hk hg
      rcases Option.ne_none_iff_exists.mp h1 with ⟨pg, hpg⟩
      rw [rl_poly_some rest _ l'.id pg hpg.symm]
      exact fun hc => Option.noConfusion hc
    · apply ih _ k hk
      refine ⟨l', hl', hid, ?_⟩
      unfold geomKnown at hg ⊢
      rw [(uls_props s l).2.2.2.2.2.2.1 l'.id]
      exact hg

theorem rl_preserves_settled (links : List Link) : ∀ (s : ReconState) (link : Link),
    settledFor s link → (∀ l' ∈ links, l'.id ≠ link.id) →
    settledFor (reconcileLinks s links).1 link := by
  induction links with
  | nil =>
    intro s link h _
    simpa [reconcileLinks] using h
  | cons l rest ih =>
    intro s link h hne
    simp only [reconcileLinks]
    refine ih _ link ?_ (fun l' hl' => hne l' (List.mem_cons.mpr (Or.inr hl')))
    exact uls_preserves_settled s l link h
      (fun hc => hne l (List.mem_cons_self l rest) hc.symm)

theorem rl_settles (links : List Link) : ∀ s : ReconState,
    (links.map Link.id).Nodup →
    ∀ l ∈ links, settledFor (reconcileLinks s links).1 l := by
  induction links with
  | nil =>
    intro s _ l hl
    simp at hl
  | cons hd rest ih =>
    intro s hnd l hl
    simp only [List.map_cons, List.nodup_cons] at hnd
    rcases List.mem_cons.mp hl with heq | hl
    · subst heq
      simp only [reconcileLinks]
      apply rl_preserves_settled rest _ l (uls_settles s l)
      intro l' hl' hc
      exact hnd.1 (List.mem_map.mpr ⟨l', hl', hc⟩)
    · simp only [reconcileLinks]
      exact ih _ hnd.2 l hl

theorem rl_identity (links : List Link) : ∀ s : ReconState,
    (∀ l ∈ links, settledFor s l) → reconcileLinks s links = (s, []) := by
  induction links with
  | nil =>
    intro s _
    rfl
  | cons hd rest ih =>
    intro s h
    have h1 := uls_settled_identity s hd (h hd (List.mem_cons_self hd rest))
    have h2 := ih s (fun l hl => h l (List.mem_cons.mpr (Or.inr hl)))
    simp [reconcileLinks, h1, h2]

theorem dc_frame (s : ReconState) (m : Option LinkMeta) (l : Link) :
    (deriveCenter s m l).1.linkStateCache = s.linkStateCache ∧
    (deriveCenter s m l).1.linkStyleCache = s.linkStyleCache ∧
    (deriveCenter s m l).1.polylines = s.polylines ∧
    (deriveCenter s m l).1.liveMarkers = s.liveMarkers ∧
    (deriveCenter s m l).1.route = s.route ∧
    (deriveCenter s m l).1.viewMode = s.viewMode ∧
    (deriveCenter s m l).1.showLiveMarkers = s.showLiveMarkers ∧
    (deriveCenter s m l).1.liveStaleThresholdSec = s.liveStaleThresholdSec := by
  unfold deriveCenter
  rcases hc : l.coordinates with _ | cs
  · simp
  · simp only []
    by_cases hlen : cs.length > 1
    · simp only [hlen, if_true]
      rcases hg : getCenterPoint cs with _ | c
      · simp [hg]
      · simp [hg]
    · simp [hlen]

theorem dc_meta_ne (s : ReconState) (m : Option LinkMeta) (l : Link) (k : String)
    (hk : k ≠ l.id) :
    alookup (deriveCenter s m l).1.linkMeta k = alookup s.linkMeta k := by
  unfold deriveCenter
  rcases hc : l.coordinates with _ | cs
  · simp
  · simp only []
    by_cases hlen : cs.length > 1
    · simp only [hlen, if_true]
      rcases hg : getCenterPoint cs with _ | c
      · simp [hg]
      · simp only [hg]
        exact alookup_aset_ne _ _ _ _ hk
    · simp [hlen]

theorem dc_meta_nt (s : ReconState) (m : Option LinkMeta) (l : Link) (k : String)
    (hm : m = alookup s.linkMeta l.id) :
    ((alookup (deriveCenter s m l).1.linkMeta k).getD {}).name =
      ((alookup s.linkMeta k).getD {}).name ∧
    ((alookup (deriveCenter s m l).1.linkMeta k).getD {}).type =
      ((alookup s.linkMeta k).getD {}).type := by
  by_cases hk : k = l.id
  · subst hk
    unfold deriveCenter
    rcases hc : l.coordinates with _ | cs
    · simp
    · simp only []
      by_cases hlen : cs.length > 1
      · simp only [hlen, if_true]
        rcases hg : getCenterPoint cs with _ | c
        · simp [hg]
        · simp only [hg]
          rw [alookup_aset_self]
          rw [hm]
          constructor <;> rfl
      · simp [hlen]
  · rw [dc_meta_ne s m l k hk]
    exact ⟨rfl, rfl⟩

theorem dc_WF (s : ReconState) (m : Option LinkMeta) (l : Link)
    (hwf : metaWF s.linkMeta = true) :
    metaWF (deriveCenter s m l).1.linkMeta = true := by
  unfold deriveCenter
  rcases hc : l.coordinates with _ | cs
  · simpa using hwf
  · simp only []
    by_cases hlen : cs.length > 1
    · simp only [hlen, if_true]
      rcases hg : getCenterPoint cs with _ | c
      · simpa using hwf
      · simp only [hg]
        apply metaWF_aset hwf
        unfold metaOK
        simpa using hlen
    · simp only [hlen, if_false]
      simpa using hwf

theorem gLC_frame (s : ReconState) (l : Link) :
    (getLinkCenter s l).1.linkStateCache = s.linkStateCache ∧
    (getLinkCenter s l).1.linkStyleCache = s.linkStyleCache ∧
    (getLinkCenter s l).1.polylines = s.polylines ∧
    (getLinkCenter s l).1.liveMarkers = s.liveMarkers ∧
    (getLinkCenter s l).1.route = s.route ∧
    (getLinkCenter s l).1.viewMode = s.viewMode ∧
    (getLinkCenter s l).1.showLiveMarkers = s.showLiveMarkers ∧
    (getLinkCenter s l).1.liveStaleThresholdSec = s.liveStaleThresholdSec := by
  unfold getLinkCenter
  by_cases hid : l.id = ""
  · simp [hid]
  · simp only [hid, if_false]
    rcases hm : alookup s.linkMeta l.id with _ | m
    · simp only [hm]
      exact dc_frame s none l
    · simp only [hm]
      rcases hcen : m.center with _ | c
      · simp only [hcen]
        exact dc_frame s (some m) l
      · simp [hcen]

theorem gLC_meta_ne (s : ReconState) (l : Link) (k : String) (hk : k ≠ l.id) :
    alookup (getLinkCenter s l).1.linkMeta k = alookup s.linkMeta k := by
  unfold getLinkCenter
  by_cases hid : l.id = ""
  · simp [hid]
  · simp only [hid, if_false]
    rcases hm : alookup s.linkMeta l.id with _ | m
    · simp only [hm]
      exact dc_meta_ne s none l k hk
    · simp only [hm]
      rcases hcen : m.center with _ | c
      · simp only [hcen]
        exact dc_meta_ne s (some m) l k hk
      · simp [hcen]

theorem gLC_meta_nt (s : ReconState) (l : Link) (k : String) :
    ((alookup (getLinkCenter s l).1.linkMeta k).getD {}).name =
      ((alookup s.linkMeta k).getD {}).name ∧
    ((alookup (getLinkCenter s l).1.linkMeta k).getD {}).type =
      ((alookup s.linkMeta k).getD {}).type := by
  unfold getLinkCenter
  by_cases hid : l.id = ""
  · simp [hid]
  · simp only [hid, if_false]
    rcases hm : alookup s.linkMeta l.id with _ | m
    · simp only [hm]
      exact dc_meta_nt s none l k hm.symm
    · simp only [hm]
      rcases hcen : m.center with _ | c
      · simp only [hcen]
        exact dc_meta_nt s (some m) l k hm.symm
      · simp [hcen]

theorem gLC_WF (s : ReconState) (l : Link) (hwf : metaWF s.linkMeta = true) :
    metaWF (getLinkCenter s l).1.linkMeta = true := by
  unfold getLinkCenter
  by_cases hid : l.id = ""
  · simpa [hid] using hwf
  · simp only [hid, if_false]
    rcases hm : alookup s.linkMeta l.id with _ | m
    · simp only [hm]
      exact dc_WF s none l hwf
    · simp only [hm]
      rcases hcen : m.center with _ | c
      · simp only [hcen]
        exact dc_WF s (some m) l hwf
      · simpa [hcen] using hwf

theorem gLC_none_id (s : ReconState) (l : Link)
    (h : (getLinkCenter s l).2 = none) : (getLinkCenter s l).1 = s := by
  unfold getLinkCenter at h ⊢
  by_cases hid : l.id = ""
  · simp [hid]
  · simp only [hid, if_false] at h ⊢
    have hdc : ∀ m : Option LinkMeta, (deriveCenter s m l).2 = none →
        (deriveCenter s m l).1 = s := by
      intro m hn
      unfold deriveCenter at hn ⊢
      rcases hc : l.coordinates with _ | cs
      · simp
      · simp only [hc] at hn ⊢
        by_cases hlen : cs.length > 1
        · simp only [hlen, if_true] at hn ⊢
          rcases hg : getCenterPoint cs with _ | c
          · simp [hg]
          · simp [hg] at hn
        · simp [hlen]
    rcases hm : alookup s.linkMeta l.id with _ | m
    · simp only [hm] at h ⊢
      exact hdc none h
    · simp only [hm] at h ⊢
      rcases hcen : m.center with _ | c
      · simp only [hcen] at h ⊢
        exact hdc (some m) h
      · simp [hcen] at h

theorem gLC_noderive (s : ReconState) (l : Link)
    (hg : hasGeomB {} l = false) : (getLinkCenter s l).1 = s := by
  unfold getLinkCenter
  by_cases hid : l.id = ""
  · simp [hid]
  · simp only [hid, if_false]
    have hdc : ∀ m : Option LinkMeta, (deriveCenter s m l).1 = s := by
      intro m
      unfold hasGeomB orO at hg
      unfold deriveCenter
      rcases hc : l.coordinates with _ | cs
      · simp
      · simp only [hc] at hg ⊢
        simp only [decide_eq_false_iff_not, Nat.not_lt] at hg
        have hlen : ¬(cs.length > 1) := by
          simp at hg ⊢
          omega
        simp [hlen]
    rcases hm : alookup s.linkMeta l.id with _ | m
    · simp only [hm]
      exact hdc none
    · simp only [hm]
      rcases hcen : m.center with _ | c
      · simp only [hcen]
        exact hdc (some m)
      · simp [hcen]

theorem gLC_id_ne (s : ReconState) (l : Link) (c : Point)
    (h : (getLinkCenter s l).2 = some c) : l.id ≠ "" := by
  intro hid
  unfold getLinkCenter at h
  simp [hid] at h

theorem settledFor_markers (X : ReconState) (Y : List (String × MarkerState))
    (link : Link) :
    settledFor { X with liveMarkers := Y } link ↔ settledFor X link := Iff.rfl

theorem settled_transport (s s' : ReconState) (link : Link)
    (hnt : ((alookup s'.linkMeta link.id).getD {}).name =
      ((alookup s.linkMeta link.id).getD {}).name ∧
      ((alookup s'.linkMeta link.id).getD {}).type =
      ((alookup s.linkMeta link.id).getD {}).type)
    (hcoordNone : alookup s.polylines link.id = none →
      ((alookup s'.linkMeta link.id).getD {}).coordinates =
      ((alookup s.linkMeta link.id).getD {}).coordinates)
    (hpoly : s'.polylines = s.polylines)
    (hstyle : s'.linkStyleCache = s.linkStyleCache)
    (hstate : s'.linkStateCache = s.linkStateCache)
    (hroute : s'.route = s.route) (hview : s'.viewMode = s.viewMode)
    (hset : settledFor s link) : settledFor s' link := by
  rcases hset with h | ⟨h1, h2, h3⟩
  · exact Or.inl h
  · right
    have hmerge : (mergeMeta (settledMeta s' link) link).2 =
        (mergeMeta (settledMeta s link) link).2 :=
      mergeMeta_changed_congr link hnt.1 hnt.2
    have hmt : metaType (settledMeta s' link) link =
        metaType (settledMeta s link) link := by
      unfold metaType settledMeta
      rw [hnt.2]
    have hmn : metaName (settledMeta s' link) link =
        metaName (settledMeta s link) link := by
      unfold metaName settledMeta
      rw [hnt.1]
    refine ⟨?_, ?_, ?_⟩
    · rw [hmerge]
      exact h1
    · intro hnone
      rw [hpoly] at hnone
      have hco := hcoordNone hnone
      have h2' := h2 hnone
      unfold hasGeomB settledMeta at h2' ⊢
      rw [hco]
      exact h2'
    · intro hsome
      rw [hpoly] at hsome
      have h3' := h3 hsome
      rw [hstyle, hstate]
      have hstyleEq : settledStyle s' link = settledStyle s link := by
        unfold settledStyle
        rw [hmt, hroute, hview]
      have hcachedEq : settledCached s' link = settledCached s link := by
        unfold settledCached
        rw [hmt, hmn]
      rw [hstyleEq, hcachedEq]
      exact h3'

theorem gLC_settled (s : ReconState) (l link : Link)
    (hwf : metaWF s.linkMeta = true) (hset : settledFor s link)
    (huniq : l.id = link.id → l = link) :
    settledFor (getLinkCenter s l).1 link := by
  by_cases hne : l.id = link.id
  · have hll := huniq hne
    subst hll
    rcases hset with h | ⟨h1, h2, h3⟩
    · exact Or.inl h
    · rcases hpoly : alookup s.polylines l.id with _ | pg
      · have hsm : (settledMeta s l).coordinates = none := by
          rcases halo : alookup s.linkMeta l.id with _ | m
          · unfold settledMeta
            rw [halo]
            rfl
          · unfold settledMeta
            rw [halo]
            simp only [Option.getD_some]
            rcases hmc : m.coordinates with _ | cs
            · rfl
            · exfalso
              have hok := metaWF_alookup hwf halo
              unfold metaOK at hok
              rw [hmc] at hok
              simp only [decide_eq_true_eq] at hok
              have hgf := h2 hpoly
              unfold hasGeomB at hgf
              have horw : orO (settledMeta s l).coordinates l.coordinates = some cs := by
                unfold settledMeta
                rw [halo]
                simp only [Option.getD_some]
                rw [hmc]
                rfl
              rw [horw] at hgf
              simp only [decide_eq_false_iff_not, Nat.not_lt] at hgf
              omega
        have hg0 : hasGeomB {} l = false := by
          have hgf := h2 hpoly
          unfold hasGeomB at hgf ⊢
          rw [hsm] at hgf
          exact hgf
        rw [gLC_noderive s l hg0]
        exact Or.inr ⟨h1, h2, h3⟩
      · refine settled_transport s _ l (gLC_meta_nt s l l.id) ?_
          (gLC_frame s l).2.2.1 (gLC_frame s l).2.1 (gLC_frame s l).1
          (gLC_frame s l).2.2.2.2.1 (gLC_frame s l).2.2.2.2.2.1
          (Or.inr ⟨h1, h2, h3⟩)
        intro hnone
        rw [hpoly] at hnone
        exact Option.noConfusion hnone
  · refine settled_transport s _ link ?_ ?_
      (gLC_frame s l).2.2.1 (gLC_frame s l).2.1 (gLC_frame s l).1
      (gLC_frame s l).2.2.2.2.1 (gLC_frame s l).2.2.2.2.2.1 hset
    · rw [gLC_meta_ne s l link.id (fun hc => hne hc.symm)]
      exact ⟨rfl, rfl⟩
    · intro _
      rw [gLC_meta_ne s l link.id (fun hc => hne hc.symm)]

theorem sync_frame (links : List Link) : ∀ s : ReconState,
    (syncLiveMarkers s links).1.linkStateCache = s.linkStateCache ∧
    (syncLiveMarkers s links).1.linkStyleCache = s.linkStyleCache ∧
    (syncLiveMarkers s links).1.polylines = s.polylines ∧
    (syncLiveMarkers s links).1.route = s.route ∧
    (syncLiveMarkers s links).1.viewMode = s.viewMode ∧
    (syncLiveMarkers s links).1.showLiveMarkers = s.showLiveMarkers ∧
    (syncLiveMarkers s links).1.liveStaleThresholdSec = s.liveStaleThresholdSec := by
  induction links with
  | nil =>
    intro s
    simp [syncLiveMarkers]
  | cons l rest ih =>
    intro s
    by_cases hlive : l.is_live
    · simp only [syncLiveMarkers, hlive, if_true]
      rcases hc : (getLinkCenter s l).2 with _ | latLng
      · simp only [hc]
        rw [gLC_none_id s l hc]
        exact ih s
      · simp only [hc]
        obtain ⟨g1, g2, g3, g4, g5, g6, g7, g8⟩ := gLC_frame s l
        obtain ⟨r1, r2, r3, r4, r5, r6, r7⟩ := ih { (getLinkCenter s l).1 with
          liveMarkers := aset (getLinkCenter s l).1.liveMarkers l.id
            (markerFor (getLinkCenter s l).1 l latLng) }
        exact ⟨by rw [r1]; exact g1, by rw [r2]; exact g2, by rw [r3]; exact g3,
          by rw [r4]; exact g5, by rw [r5]; exact g6, by rw [r6]; exact g7,
          by rw [r7]; exact g8⟩
    · simp only [syncLiveMarkers, hlive, if_false]
      exact ih s

theorem sync_WF (links : List Link) : ∀ s : ReconState,
    metaWF s.linkMeta = true → metaWF (syncLiveMarkers s links).1.linkMeta = true := by
  induction links with
  | nil =>
    intro s hwf
    simpa [syncLiveMarkers] using hwf
  | cons l rest ih =>
    intro s hwf
    by_cases hlive : l.is_live
    · simp only [syncLiveMarkers, hlive, if_true]
      rcases hc : (getLinkCenter s l).2 with _ | latLng
      · simp only [hc]
        rw [gLC_none_id s l hc]
        exact ih s hwf
      · simp only [hc]
        exact ih _ (gLC_WF s l hwf)
    · simp only [syncLiveMarkers, hlive, if_false]
      exact ih s hwf

theorem sync_settled (links : List Link) : ∀ (s : ReconState) (link : Link),
    metaWF s.linkMeta = true → settledFor s link →
    (∀ l' ∈ links, l'.id = link.id → l' = link) →
    settledFor (syncLiveMarkers s links).1 link := by
  induction links with
  | nil =>
    intro s link _ h _
    simpa [syncLiveMarkers] using h
  | cons l rest ih =>
    intro s link hwf hset huniq
    by_cases hlive : l.is_live
    · simp only [syncLiveMarkers, hlive, if_true]
      rcases hc : (getLinkCenter s l).2 with _ | latLng
      · simp only [hc]
        rw [gLC_none_id s l hc]
        exact ih s link hwf hset
          (fun l' hl' => huniq l' (List.mem_cons.mpr (Or.inr hl')))
      · simp only [hc]
        refine ih _ link ?_ ?_
          (fun l' hl' => huniq l' (List.mem_cons.mpr (Or.inr hl')))
        · have := gLC_WF s l hwf
          simpa using this
        · rw [settledFor_markers]
          exact gLC_settled s l link hwf hset
            (fun hc2 => huniq l (List.mem_cons_self l rest) hc2)
    · simp only [syncLiveMarkers, hlive, if_false]
      exact ih s link hwf hset
        (fun l' hl' => huniq l' (List.mem_cons.mpr (Or.inr hl')))

theorem sync_ids (links : List Link) : ∀ (s : ReconState) (i : String),
    i ∈ (syncLiveMarkers s links).2 → ∃ l ∈ links, l.id = i ∧ i ≠ "" := by
  induction links with
  | nil =>
    intro s i h
    simp [syncLiveMarkers] at h
  | cons l rest ih =>
    intro s i h
    by_cases hlive : l.is_live
    · simp only [syncLiveMarkers, hlive, if_true] at h
      rcases hc : (getLinkCenter s l).2 with _ | latLng
      · rw [hc] at h
        rcases ih _ i h with ⟨l', hl', hid, hne⟩
        exact ⟨l', List.mem_cons.mpr (Or.inr hl'), hid, hne⟩
      · rw [hc] at h
        simp only [List.mem_cons] at h
        rcases h with h | h
        · subst h
          exact ⟨l, List.mem_cons_self l rest, rfl, gLC_id_ne s l latLng hc⟩
        · rcases ih _ i h with ⟨l', hl', hid, hne⟩
          exact ⟨l', List.mem_cons.mpr (Or.inr hl'), hid, hne⟩
    · simp only [syncLiveMarkers, hlive, if_false] at h
      rcases ih _ i h with ⟨l', hl', hid, hne⟩
      exact ⟨l', List.mem_cons.mpr (Or.inr hl'), hid, hne⟩

theorem ulm_frame (s : ReconState) (links : List Link) :
    (updateLiveMarkers s links).linkMeta = (updateLiveMarkers s links).linkMeta ∧
    (updateLiveMarkers s links).linkStateCache = s.linkStateCache ∧
    (updateLiveMarkers s links).linkStyleCache = s.linkStyleCache ∧
    (updateLiveMarkers s links).polylines = s.polylines ∧
    (updateLiveMarkers s links).route = s.route ∧
    (updateLiveMarkers s links).viewMode = s.viewMode ∧
    (updateLiveMarkers s links).showLiveMarkers = s.showLiveMarkers ∧
    (updateLiveMarkers s links).liveStaleThresholdSec = s.liveStaleThresholdSec := by
  unfold updateLiveMarkers
  by_cases hs : s.showLiveMarkers = false
  · rw [if_pos hs]
    simp
  · rw [if_neg hs]
    obtain ⟨f1, f2, f3, f4, f5, f6, f7⟩ := sync_frame links s
    exact ⟨rfl, by simp [f1], by simp [f2], by simp [f3], by simp [f4],
      by simp [f5], by simp [f6], by simp [f7]⟩

theorem ulm_settled (s : ReconState) (links : List Link) (link : Link)
    (hwf : metaWF s.linkMeta = true) (hset : settledFor s link)
    (huniq : ∀ l' ∈ links, l'.id = link.id → l' = link) :
    settledFor (updateLiveMarkers s links) link := by
  unfold updateLiveMarkers
  by_cases hs : s.showLiveMarkers = false
  · rw [if_pos hs, settledFor_markers]
    exact hset
  · rw [if_neg hs, settledFor_markers]
    exact sync_settled links s link hwf hset huniq

theorem ulm_markers_not_in (s : ReconState) (links : List Link) (L : String)
    (h : L ∉ currentIds links) :
    alookup (updateLiveMarkers s links).liveMarkers L = none := by
  unfold updateLiveMarkers
  by_cases hs : s.showLiveMarkers = false
  · rw [if_pos hs]
    simp [alookup]
  · rw [if_neg hs]
    dsimp only
    rw [alookup_filter_mem]
    split
    · rename_i hmem
      exfalso
      rcases sync_ids links s L hmem with ⟨l, hl, hid, hne⟩
      apply h
      unfold currentIds
      exact List.mem_map.mpr ⟨l, List.mem_filter.mpr ⟨hl, by simp [hid, hne]⟩, hid⟩
    · rfl

theorem settled_prune (s : ReconState) (ids prune : List String) (link : Link)
    (hmem : link.id ∈ ids) (hnp : link.id ∉ prune) (hset : settledFor s link) :
    settledFor { s with
      polylines := s.polylines.filter (fun q => decide (q.1 ∈ ids)),
      linkStateCache := s.linkStateCache.filter (fun q => decide (q.1 ∉ prune)),
      linkStyleCache := s.linkStyleCache.filter (fun q => decide (q.1 ∉ prune)) }
      link := by
  rcases hset with h | ⟨h1, h2, h3⟩
  · exact Or.inl h
  · right
    have hp : alookup (s.polylines.filter fun q => decide (q.1 ∈ ids)) link.id =
        alookup s.polylines link.id := by
      rw [alookup_filter_mem]
      simp [hmem]
    have hsc : alookup (s.linkStyleCache.filter fun q => decide (q.1 ∉ prune))
        link.id = alookup s.linkStyleCache link.id := by
      rw [alookup_filter_not]
      simp [hnp]
    have hst : alookup (s.linkStateCache.filter fun q => decide (q.1 ∉ prune))
        link.id = alookup s.linkStateCache link.id := by
      rw [alookup_filter_not]
      simp [hnp]
    refine ⟨h1, ?_, ?_⟩
    · intro hnone
      rw [show alookup ({ s with
          polylines := s.polylines.filter (fun q => decide (q.1 ∈ ids)),
          linkStateCache := s.linkStateCache.filter (fun q => decide (q.1 ∉ prune)),
          linkStyleCache := s.linkStyleCache.filter (fun q => decide (q.1 ∉ prune)) } :
            ReconState).polylines link.id = alookup s.polylines link.id from hp] at hnone
      exact h2 hnone
    · intro hsome
      rw [show alookup ({ s with
          polylines := s.polylines.filter (fun q => decide (q.1 ∈ ids)),
          linkStateCache := s.linkStateCache.filter (fun q => decide (q.1 ∉ prune)),
          linkStyleCache := s.linkStyleCache.filter (fun q => decide (q.1 ∉ prune)) } :
            ReconState).polylines link.id = alookup s.polylines link.id from hp] at hsome
      have h3' := h3 hsome
      exact ⟨by rw [hsc]; exact h3'.1, by rw [hst]; exact h3'.2⟩

theorem um_full_poly_keys (s : ReconState) (links : List Link) :
    ∀ x ∈ ((updateMap s links true).1.polylines.map Prod.fst),
    x ∈ currentIds links := by
  intro x hx
  simp only [updateMap] at hx
  rw [if_pos trivial] at hx
  dsimp only at hx
  rcases List.mem_map.mp hx with ⟨q, hq, hxq⟩
  have h2 := (List.mem_filter.mp hq).2
  rw [← hxq]
  simpa using h2

theorem um_events_of_settled (t : ReconState) (links : List Link)
    (hset : ∀ l ∈ links, settledFor t l)
    (hkeys : ∀ x ∈ t.polylines.map Prod.fst, x ∈ currentIds links) :
    (updateMap t links true).2 = [] := by
  have hid2 : reconcileLinks t links = (t, []) := rl_identity links t hset
  simp only [updateMap]
  rw [if_pos trivial, hid2]
  dsimp only
  have hpr : (((updateLiveMarkers t links).polylines.map Prod.fst).filter
      (fun i => decide (i ∉ currentIds links))) = [] := by
    rw [(ulm_frame t links).2.2.2.1]
    apply List.filter_eq_nil_iff.mpr
    intro a ha
    simp only [decide_eq_true_eq, not_not]
    exact hkeys a ha
  rw [hpr]
  simp

theorem url_events_of_settled (t : ReconState) (links : List Link)
    (hset : ∀ l ∈ links, settledFor t l) :
    (updateRouteLinks t links).2 = [] := by
  simp only [updateRouteLinks]
  rw [rl_identity links t hset]

/-- C6: when a full snapshot omits an id whose overlay entity previously
existed, that single `updateMap` call with pruning removes the entity, both
cache entries and the live marker for that id; a route-scoped
`updateRouteLinks` call never removes an existing overlay entity, whatever
its snapshot omits. -/
theorem full_prune_removes (s : ReconState) (links : List Link) (L : String)
    (pg : PolyGroup) (hL : alookup s.polylines L = some pg)
    (hmiss : L ∉ currentIds links) :
    (alookup (updateMap s links true).1.polylines L = none ∧
     alookup (updateMap s links true).1.linkStateCache L = none ∧
     alookup (updateMap s links true).1.linkStyleCache L = none ∧
     alookup (updateMap s links true).1.liveMarkers L = none) ∧
    (∀ links' : List Link,
      alookup (updateRouteLinks s links').1.polylines L = some pg) := by
  have hpoly1 := rl_poly_some links s L pg hL
  have hpoly2 : alookup
      (updateLiveMarkers (reconcileLinks s links).1 links).polylines L =
      some pg := by
    rw [(ulm_frame (reconcileLinks s links).1 links).2.2.2.1]
    exact hpoly1
  have hkeys : L ∈
      (updateLiveMarkers (reconcileLinks s links).1 links).polylines.map
        Prod.fst :=
    List.mem_map.mpr ⟨(L, pg), alookup_mem hpoly2, rfl⟩
  have hprune : L ∈
      ((updateLiveMarkers (reconcileLinks s links).1 links).polylines.map
        Prod.fst).filter (fun i => decide (i ∉ currentIds links)) :=
    List.mem_filter.mpr ⟨hkeys, by simpa using hmiss⟩
  constructor
  · simp only [updateMap]
    rw [if_pos trivial]
    refine ⟨?_, ?_, ?_, ?_⟩
    · dsimp only
      rw [alookup_filter_mem, if_neg hmiss]
    · dsimp only
      rw [alookup_filter_not, if_pos hprune]
    · dsimp only
      rw [alookup_filter_not, if_pos hprune]
    · dsimp only
      exact ulm_markers_not_in (reconcileLinks s links).1 links L hmiss
  · intro links'
    simp only [updateRouteLinks]
    rw [(ulm_frame (reconcileLinks s links').1 links').2.2.2.1]
    exact rl_poly_some links' s L pg hL

theorem full_prune_removes_witness :
    alookup pruneDemo.polylines "L" = some pgDemo ∧
    "L" ∉ currentIds [] ∧
    ((alookup (updateMap pruneDemo [] true).1.polylines "L" = none ∧
      alookup (updateMap pruneDemo [] true).1.linkStateCache "L" = none ∧
      alookup (updateMap pruneDemo [] true).1.linkStyleCache "L" = none ∧
      alookup (updateMap pruneDemo [] true).1.liveMarkers "L" = none) ∧
     (∀ links' : List Link,
       alookup (updateRouteLinks pruneDemo links').1.polylines "L" =
         some pgDemo)) :=
  ⟨by with_unfolding_all rfl, by decide,
   full_prune_removes pruneDemo [] "L" pgDemo (by with_unfolding_all rfl)
     (by decide)⟩

/-- C5: reconciliation is write-idempotent — for a snapshot with distinct
ids and a well-formed geometry cache, reconciling the identical snapshot a
second time in a row, via the full path with pruning or via the
route-scoped path, performs zero writes to the render surface on the second
pass (in particular zero style writes), because the style cache equals the
last style written and `applyLinkStyle` skips exactly when the computed
style equals the cached one. -/
theorem reconcile_idempotent (s : ReconState) (links : List Link)
    (hnd : (links.map Link.id).Nodup) (hwf : metaWF s.linkMeta = true) :
    (updateMap (updateMap s links true).1 links true).2 = [] ∧
    (updateRouteLinks (updateRouteLinks s links).1 links).2 = [] := by
  have huniq : ∀ l ∈ links, ∀ l' ∈ links, l'.id = l.id → l' = l :=
    fun l hl l' hl' hid => List.inj_on_of_nodup_map hnd hl' hl hid
  constructor
  · have hset1 : ∀ l ∈ links, settledFor (updateMap s links true).1 l := by
      intro l hl
      by_cases hid : l.id = ""
      · exact Or.inl hid
      have hmemcur : l.id ∈ currentIds links := by
        unfold currentIds
        exact List.mem_map.mpr ⟨l, List.mem_filter.mpr ⟨hl, by simpa using hid⟩,
          rfl⟩
      have hsetulm := ulm_settled (reconcileLinks s links).1 links l
        (rl_WF links s hwf) (rl_settles links s hnd l hl) (huniq l hl)
      simp only [updateMap]
      rw [if_pos trivial]
      dsimp only
      refine settled_prune _ _ _ l hmemcur ?_ hsetulm
      intro hmem
      have h2 := (List.mem_filter.mp hmem).2
      simp only [decide_eq_true_eq] at h2
      exact h2 hmemcur
    exact um_events_of_settled _ links hset1 (um_full_poly_keys s links)
  · have hset1 : ∀ l ∈ links, settledFor (updateRouteLinks s links).1 l := by
      intro l hl
      simp only [updateRouteLinks]
      exact ulm_settled (reconcileLinks s links).1 links l
        (rl_WF links s hwf) (rl_settles links s hnd l hl) (huniq l hl)
    exact url_events_of_settled _ links hset1

theorem reconcile_idempotent_witness :
    ([geomLinkDemo].map Link.id).Nodup ∧
    metaWF reconDemo.linkMeta = true ∧
    ((updateMap (updateMap reconDemo [geomLinkDemo] true).1 [geomLinkDemo]
        true).2 = [] ∧
     (updateRouteLinks (updateRouteLinks reconDemo [geomLinkDemo]).1
        [geomLinkDemo]).2 = []) :=
  ⟨by decide, by with_unfolding_all rfl,
   reconcile_idempotent reconDemo [geomLinkDemo] (by decide)
     (by with_unfolding_all rfl)⟩

theorem rl_create_after (links : List Link) : ∀ (s : ReconState) (j : String),
    WriteEvent.createEntity j ∈ (reconcileLinks s links).2 →
    alookup (reconcileLinks s links).1.polylines j ≠ none := by
  induction links with
  | nil =>
    intro s j h
    simp [reconcileLinks] at h
  | cons l rest ih =>
    intro s j h
    simp only [reconcileLinks] at h ⊢
    rcases List.mem_append.mp h with h | h
    · have h1 := ((uls_events s l).1 j h).2.2
      rcases Option.ne_none_iff_exists.mp h1 with ⟨pg, hpg⟩
      rw [rl_poly_some rest _ j pg hpg.symm]
      exact fun hc => Option.noConfusion hc
    · exact ih _ j h

theorem rl_create_ids (links : List Link) : ∀ (s : ReconState) (j : String),
    WriteEvent.createEntity j ∈ (reconcileLinks s links).2 →
    ∃ l ∈ links, l.id = j ∧ j ≠ "" := by
  induction links with
  | nil =>
    intro s j h
    simp [reconcileLinks] at h
  | cons l rest ih =>
    intro s j h
    rcases List.mem_append.mp (by simpa only [reconcileLinks] using h) with h | h
    · have hj := ((uls_events s l).1 j h).1
      by_cases hid0 : l.id = ""
      · exfalso
        simp [updateLinkState, hid0] at h
      · exact ⟨l, List.mem_cons_self l rest, hj.symm, by rw [hj]; exact hid0⟩
    · rcases ih _ j h with ⟨l', hl', hid, hne⟩
      exact ⟨l', List.mem_cons.mpr (Or.inr hl'), hid, hne⟩

theorem um_events_eq (s : ReconState) (links : List Link) :
    (updateMap s links true).2 = (reconcileLinks s links).2 ++
      (((updateLiveMarkers (reconcileLinks s links).1 links).polylines.map
        Prod.fst).filter (fun i => decide (i ∉ currentIds links))).map
        WriteEvent.removeEntity := by
  simp only [updateMap]
  rw [if_pos trivial]

theorem um_state_polylines (s : ReconState) (links : List Link) (j : String) :
    alookup (updateMap s links true).1.polylines j =
      if j ∈ currentIds links
        then alookup (reconcileLinks s links).1.polylines j else none := by
  simp only [updateMap]
  rw [if_pos trivial]
  dsimp only
  rw [alookup_filter_mem,
    (ulm_frame (reconcileLinks s links).1 links).2.2.2.1]

theorem url_events_eq (s : ReconState) (links : List Link) :
    (updateRouteLinks s links).2 = (reconcileLinks s links).2 := rfl

theorem url_state_polylines (s : ReconState) (links : List Link) (j : String) :
    alookup (updateRouteLinks s links).1.polylines j =
      alookup (reconcileLinks s links).1.polylines j := by
  simp only [updateRouteLinks]
  rw [(ulm_frame (reconcileLinks s links).1 links).2.2.2.1]

theorem um_create_mem (s : ReconState) (links : List Link) (j : String)
    (h : WriteEvent.createEntity j ∈ (updateMap s links true).2) :
    alookup s.polylines j = none := by
  rw [um_events_eq] at h
  rcases List.mem_append.mp h with h | h
  · exact rl_create_mem links s j h
  · exfalso
    rcases List.mem_map.mp h with ⟨i, _, hc⟩
    exact WriteEvent.noConfusion hc

theorem url_create_mem (s : ReconState) (links : List Link) (j : String)
    (h : WriteEvent.createEntity j ∈ (updateRouteLinks s links).2) :
    alookup s.polylines j = none := by
  rw [url_events_eq] at h
  exact rl_create_mem links s j h

theorem um_create_count (s : ReconState) (links : List Link) (j : String) :
    (updateMap s links true).2.count (WriteEvent.createEntity j) ≤ 1 := by
  rw [um_events_eq, List.count_append]
  have h0 : ((((updateLiveMarkers (reconcileLinks s links).1
      links).polylines.map Prod.fst).filter
      (fun i => decide (i ∉ currentIds links))).map
      WriteEvent.removeEntity).count (WriteEvent.createEntity j) = 0 := by
    apply List.count_eq_zero.mpr
    intro hc
    rcases List.mem_map.mp hc with ⟨i, _, hc2⟩
    exact WriteEvent.noConfusion hc2
  rw [h0]
  have := rl_create_count links s j
  omega

theorem url_create_count (s : ReconState) (links : List Link) (j : String) :
    (updateRouteLinks s links).2.count (WriteEvent.createEntity j) ≤ 1 := by
  rw [url_events_eq]
  exact rl_create_count links s j

theorem um_create_after (s : ReconState) (links : List Link) (j : String)
    (h : WriteEvent.createEntity j ∈ (updateMap s links true).2) :
    alookup (updateMap s links true).1.polylines j ≠ none := by
  rw [um_events_eq] at h
  rcases List.mem_append.mp h with h | h
  · rcases rl_create_ids links s j h with ⟨l, hl, hid, hne⟩
    have hjm : j ∈ currentIds links := by
      unfold currentIds
      exact List.mem_map.mpr ⟨l, List.mem_filter.mpr ⟨hl, by simp [hid, hne]⟩,
        hid⟩
    rw [um_state_polylines, if_pos hjm]
    exact rl_create_after links s j h
  · exfalso
    rcases List.mem_map.mp h with ⟨i, _, hc⟩
    exact WriteEvent.noConfusion hc

theorem url_create_after (s : ReconState) (links : List Link) (j : String)
    (h : WriteEvent.createEntity j ∈ (updateRouteLinks s links).2) :
    alookup (updateRouteLinks s links).1.polylines j ≠ none := by
  rw [url_events_eq] at h
  rw [url_state_polylines]
  exact rl_create_after links s j h

theorem um_geom_after (s : ReconState) (links : List Link) (l : Link)
    (hl : l ∈ links) (hid : l.id ≠ "") (hg : geomKnown s.linkMeta l = true) :
    alookup (updateMap s links true).1.polylines l.id ≠ none := by
  have hjm : l.id ∈ currentIds links := by
    unfold currentIds
    exact List.mem_map.mpr ⟨l, List.mem_filter.mpr ⟨hl, by simpa using hid⟩, rfl⟩
  rw [um_state_polylines, if_pos hjm]
  exact rl_geom_creates links s l.id hid ⟨l, hl, rfl, hg⟩

theorem run_no_create_some (runs : List (List Link × Bool)) :
    ∀ (s : ReconState) (j : String) (pg : PolyGroup),
    alookup s.polylines j = some pg →
    (∀ p ∈ runs, p.2 = true → j ∈ currentIds p.1) →
    WriteEvent.createEntity j ∉ (reconcileRun s runs).2 := by
  induction runs with
  | nil =>
    intro s j pg h _ hc
    simp [reconcileRun] at hc
  | cons p rest ih =>
    intro s j pg h hcov hc
    obtain ⟨links, full⟩ := p
    simp only [reconcileRun] at hc
    have hcov' : ∀ q ∈ rest, q.2 = true → j ∈ currentIds q.1 :=
      fun q hq hqf => hcov q (List.mem_cons.mpr (Or.inr hq)) hqf
    by_cases hf : full = true
    · rw [if_pos hf] at hc
      rcases List.mem_append.mp hc with hc | hc
      · have h2 := um_create_mem s links j hc
        rw [h] at h2
        exact Option.noConfusion h2
      · have h2 : alookup (updateMap s links true).1.polylines j = some pg := by
          have hjm : j ∈ currentIds links :=
            hcov (links, full) (List.mem_cons_self _ _) hf
          rw [um_state_polylines, if_pos hjm]
          exact rl_poly_some links s j pg h
        exact ih _ j pg h2 hcov' hc
    · rw [if_neg hf] at hc
      rcases List.mem_append.mp hc with hc | hc
      · rw [url_events_eq] at hc
        have h2 := rl_create_mem links s j hc
        rw [h] at h2
        exact Option.noConfusion h2
      · have h2 : alookup (updateRouteLinks s links).1.polylines j = some pg := by
          rw [url_state_polylines]
          exact rl_poly_some links s j pg h
        exact ih _ j pg h2 hcov' hc

theorem run_create_count (runs : List (List Link × Bool)) :
    ∀ (s : ReconState) (j : String),
    (∀ p ∈ runs, p.2 = true → j ∈ currentIds p.1) →
    (reconcileRun s runs).2.count (WriteEvent.createEntity j) ≤ 1 := by
  induction runs with
  | nil =>
    intro s j _
    simp [reconcileRun]
  | cons p rest ih =>
    intro s j hcov
    obtain ⟨links, full⟩ := p
    simp only [reconcileRun, List.count_append]
    have hcov' : ∀ q ∈ rest, q.2 = true → j ∈ currentIds q.1 :=
      fun q hq hqf => hcov q (List.mem_cons.mpr (Or.inr hq)) hqf
    by_cases hf : full = true
    · rw [if_pos hf]
      by_cases hmem : WriteEvent.createEntity j ∈ (updateMap s links true).2
      · rcases Option.ne_none_iff_exists.mp (um_create_after s links j hmem)
          with ⟨pg, hpg⟩
        have hno : WriteEvent.createEntity j ∉
            (reconcileRun (updateMap s links true).1 rest).2 :=
          run_no_create_some rest _ j pg hpg.symm hcov'
        rw [List.count_eq_zero.mpr hno]
        have := um_create_count s links j
        omega
      · rw [List.count_eq_zero.mpr hmem]
        have := ih (updateMap s links true).1 j hcov'
        omega
    · rw [if_neg hf]
      by_cases hmem : WriteEvent.createEntity j ∈ (updateRouteLinks s links).2
      · rcases Option.ne_none_iff_exists.mp (url_create_after s links j hmem)
          with ⟨pg, hpg⟩
        have hno : WriteEvent.createEntity j ∉
            (reconcileRun (updateRouteLinks s links).1 rest).2 :=
          run_no_create_some rest _ j pg hpg.symm hcov'
        rw [List.count_eq_zero.mpr hno]
        have := url_create_count s links j
        omega
      · rw [List.count_eq_zero.mpr hmem]
        have := ih (updateRouteLinks s links).1 j hcov'
        omega

/-- C4 counterexample: on the snapshot sequence full {L}, full {}, full {L}
starting from an empty reconciler state, the overlay entity for "L" is
created twice — the middle full snapshot prunes it and the third sighting
re-creates it — refuting creation at most once per id across an arbitrary
sequence of reconciled snapshots. -/
theorem overlay_recreated_after_prune :
    (reconcileRun reconDemo
      [([geomLinkDemo], true), ([], true), ([geomLinkDemo], true)]).2.count
      (WriteEvent.createEntity "L") = 2 := by
  with_unfolding_all rfl

/-- C4 (amended): within one reconciliation call — full with pruning or
route-scoped — an overlay entity is created only for an id that has no
existing entity, at most one creation per id is emitted, and an entity for
a non-empty snapshot id with known geometry certainly exists after the
call; across a whole reconciliation sequence the entity for an id is
created at most once provided no full snapshot of the sequence omits that
id (a full snapshot that omits it prunes the entity, and a later sighting
creates it again). -/
theorem overlay_entity_lifecycle :
    (∀ (s : ReconState) (links : List Link) (j : String),
      WriteEvent.createEntity j ∈ (updateMap s links true).2 →
        alookup s.polylines j = none) ∧
    (∀ (s : ReconState) (links : List Link) (j : String),
      WriteEvent.createEntity j ∈ (updateRouteLinks s links).2 →
        alookup s.polylines j = none) ∧
    (∀ (s : ReconState) (links : List Link) (j : String),
      (updateMap s links true).2.count (WriteEvent.createEntity j) ≤ 1 ∧
      (updateRouteLinks s links).2.count (WriteEvent.createEntity j) ≤ 1) ∧
    (∀ (s : ReconState) (links : List Link) (l : Link),
      l ∈ links → l.id ≠ "" → geomKnown s.linkMeta l = true →
      alookup (updateMap s links true).1.polylines l.id ≠ none) ∧
    (∀ (s : ReconState) (runs : List (List Link × Bool)) (j : String),
      (∀ p ∈ runs, p.2 = true → j ∈ currentIds p.1) →
      (reconcileRun s runs).2.count (WriteEvent.createEntity j) ≤ 1) :=
  ⟨um_create_mem, url_create_mem,
   fun s links j => ⟨um_create_count s links j, url_create_count s links j⟩,
   um_geom_after,
   fun s runs j hcov => run_create_count runs s j hcov⟩

theorem overlay_entity_lifecycle_witness :
    (∀ p ∈ ([([geomLinkDemo], true), ([geomLinkDemo], false)] :
        List (List Link × Bool)),
      p.2 = true → "L" ∈ currentIds p.1) ∧
    (reconcileRun reconDemo
      [([geomLinkDemo], true), ([geomLinkDemo], false)]).2.count
      (WriteEvent.createEntity "L") ≤ 1 :=
  ⟨by decide,
   overlay_entity_lifecycle.2.2.2.2 reconDemo
     [([geomLinkDemo], true), ([geomLinkDemo], false)] "L" (by decide)⟩

end Fareway
